import Mathlib

/-!
# candleLight_fw: the frame-pool scheduler loop of `src/main.c`

A shallow embedding of `send_to_host_or_enqueue` and of the body of the
`while (1)` loop of `main`, together with the three frame queues
(`q_frame_pool`, `q_from_host`, `q_to_host`), the frame slab `msgbuf` and the
local `last_can_error_status`.

The CAN driver, the USB transport and the LED engine are external
collaborators.  One loop iteration receives their answers in an `Env` record
(one field per call site) and returns, next to the new state, the list of
collaborator calls it made.
-/

namespace CandleLight

/-! ## Data model -/

/-- Modelled from the spec: the frame record `struct gs_host_frame` of
`gs_usb.h`, which is not among the sources.  `main.c` names the fields
`echo_id`, `channel`, `flags` and `reserved`; the spec adds the arbitration
id, the data length and the payload bytes. -/
structure gs_host_frame where
  echo_id : Nat
  can_id : Nat
  can_dlc : Nat
  channel : Nat
  flags : Nat
  reserved : Nat
  data : List Nat
deriving DecidableEq, Inhabited

/-- A `struct gs_host_frame *`: `none` is the null pointer `0`, `some i` is
`&msgbuf[i]`. -/
abbrev FramePtr := Option Nat

/-- Modelled from the spec: the bounded queue `queue_t` of `queue.h`, which is
not among the sources: a FIFO of frame references with a capacity fixed at
construction. -/
structure queue_t where
  max_elements : Nat
  buf : List FramePtr
deriving DecidableEq

/-- Modelled from the spec: `queue_create` of `queue.h` (not among the
sources) builds an empty queue of the given fixed capacity. -/
def queue_create (max_elements : Nat) : queue_t :=
  { max_elements := max_elements, buf := [] }

/-- Modelled from the spec: `queue_size` of `queue.h` (not among the sources),
the number of entries held. -/
def queue_size (q : queue_t) : Nat := q.buf.length

/-- Modelled from the spec: `queue_push_back` of `queue.h` (not among the
sources).  The push never blocks; it fails softly, leaving the queue as it
was, when the capacity is exceeded. -/
def queue_push_back (q : queue_t) (el : FramePtr) : queue_t :=
  if queue_size q < q.max_elements then { q with buf := q.buf ++ [el] } else q

/-- Modelled from the spec: `queue_push_front` of `queue.h` (not among the
sources), the priority re-insertion at the head; it fails softly like
`queue_push_back`. -/
def queue_push_front (q : queue_t) (el : FramePtr) : queue_t :=
  if queue_size q < q.max_elements then { q with buf := el :: q.buf } else q

/-- Modelled from the spec: `queue_pop_front` of `queue.h` (not among the
sources).  It never waits: on an empty queue it returns "empty", which for the
pointer-valued C function tested with `frame != 0` in `main.c` is the null
pointer. -/
def queue_pop_front (q : queue_t) : FramePtr × queue_t :=
  match q.buf with
  | [] => (none, q)
  | el :: rest => (el, { q with buf := rest })

/-- The two LED sequences named in `main.c`. -/
inductive led_seq_t where
  | led_1
  | led_2
deriving DecidableEq

/-- The globals `q_frame_pool`, `q_from_host`, `q_to_host`, the slab `msgbuf`
and the local `last_can_error_status` of `main`. -/
structure State where
  q_frame_pool : queue_t
  q_from_host : queue_t
  q_to_host : queue_t
  msgbuf : List gs_host_frame
  last_can_error_status : Nat
deriving DecidableEq

/-- Contents of the frame a pointer refers to (`*frame`). -/
def frame_at (s : State) (frame : FramePtr) : gs_host_frame :=
  match frame with
  | some i => s.msgbuf.getD i default
  | none => default

/-- Writing through a frame pointer (`*frame = v`). -/
def frame_store (s : State) (frame : FramePtr) (v : gs_host_frame) : State :=
  match frame with
  | some i => { s with msgbuf := s.msgbuf.set i v }
  | none => s

/-- A call to a collaborator, with the frame pointer handed over and the
answer received. -/
inductive Event where
  | can_send (frame : FramePtr) (ok : Bool)
  | USBD_GS_CAN_Transmit (frame : FramePtr) (bytes : gs_host_frame) (ok : Bool)
  | can_receive (frame : FramePtr) (ok : Bool)
  | can_parse_error_status (err : Nat) (frame : FramePtr) (ok : Bool)
  | led_indicate_trx (led : led_seq_t)
  | led_update
deriving DecidableEq

/-- The answers of the collaborators during one loop iteration, one field per
call site of `main.c`.  A transmit answer `true` stands for `USBD_OK`.  The
status codes are `uint32_t` values; the loop only compares and stores them. -/
structure Env where
  /-- Line 102, `can_send(&hCAN, frame)`. -/
  can_send : gs_host_frame → Bool
  /-- Line 103, the transmit inside `send_to_host_or_enqueue`. -/
  usb_transmit_echo : Bool
  /-- Line 111. -/
  USBD_GS_CAN_TxReady : Bool
  /-- Line 115. -/
  usb_transmit_drain : Bool
  /-- Line 123. -/
  can_is_rx_pending : Bool
  /-- Line 125, `can_receive(&hCAN, frame)`: the answer and what it leaves in
  the frame. -/
  can_receive : gs_host_frame → Bool × gs_host_frame
  /-- Line 131, the transmit inside `send_to_host_or_enqueue`. -/
  usb_transmit_rx : Bool
  /-- Line 141. -/
  can_get_error_status : Nat
  /-- Line 145, `can_parse_error_status(can_err, frame)`: the answer and what
  it leaves in the frame. -/
  can_parse_error_status : Nat → gs_host_frame → Bool × gs_host_frame
  /-- Line 146, the transmit inside `send_to_host_or_enqueue`. -/
  usb_transmit_err : Bool

/-! ## The program -/

/-- The function `send_to_host_or_enqueue` (lines 50-60); `usbd_ok` is the
answer of `USBD_GS_CAN_Transmit`.  Returns `retval`, the new state and the
collaborator calls made. -/
def send_to_host_or_enqueue (usbd_ok : Bool) (frame : FramePtr) (s : State) :
    Bool × State × List Event :=
  let ev := [Event.USBD_GS_CAN_Transmit frame (frame_at s frame) usbd_ok]
  if usbd_ok then
    (true, { s with q_frame_pool := queue_push_back s.q_frame_pool frame }, ev)
  else
    (false, { s with q_to_host := queue_push_back s.q_to_host frame }, ev)

/-- Lines 100-109 of `main`: send one CAN message from the host to the bus. -/
def main_host_to_bus (e : Env) (s : State) : State × List Event :=
  let r := queue_pop_front s.q_from_host
  let frame := r.1
  let s1 := { s with q_from_host := r.2 }
  if frame.isSome then
    if e.can_send (frame_at s1 frame) then
      let r2 := send_to_host_or_enqueue e.usb_transmit_echo frame s1
      (r2.2.1, Event.can_send frame true :: r2.2.2 ++ [Event.led_indicate_trx led_seq_t.led_2])
    else
      ({ s1 with q_from_host := queue_push_front s1.q_from_host frame },
        [Event.can_send frame false])
  else
    (s1, [])

/-- Lines 111-121 of `main`: send one queued message to the host. -/
def main_outbound_drain (e : Env) (s : State) : State × List Event :=
  if e.USBD_GS_CAN_TxReady then
    if queue_size s.q_to_host > 0 then
      let r := queue_pop_front s.q_to_host
      let frame := r.1
      let s1 := { s with q_to_host := r.2 }
      if e.usb_transmit_drain then
        ({ s1 with q_frame_pool := queue_push_back s1.q_frame_pool frame },
          [Event.USBD_GS_CAN_Transmit frame (frame_at s1 frame) true])
      else
        ({ s1 with q_to_host := queue_push_front s1.q_to_host frame },
          [Event.USBD_GS_CAN_Transmit frame (frame_at s1 frame) false])
    else
      (s, [])
  else
    (s, [])

/-- Lines 123-139 of `main`: fetch one pending reception from the bus.  In
`(frame != 0) && can_receive(&hCAN, frame)` the receive is only called for a
non-null frame; the `else` branch is taken when either operand is false. -/
def main_bus_to_host (e : Env) (s : State) : State × List Event :=
  if e.can_is_rx_pending then
    let r := queue_pop_front s.q_frame_pool
    let frame := r.1
    let s1 := { s with q_frame_pool := r.2 }
    if frame.isSome then
      let rx := e.can_receive (frame_at s1 frame)
      let s2 := frame_store s1 frame rx.2
      if rx.1 then
        let s3 := frame_store s2 frame
          { frame_at s2 frame with echo_id := 0xFFFFFFFF, channel := 0, flags := 0, reserved := 0 }
        let r2 := send_to_host_or_enqueue e.usb_transmit_rx frame s3
        (r2.2.1, Event.can_receive frame true :: r2.2.2 ++ [Event.led_indicate_trx led_seq_t.led_1])
      else
        ({ s2 with q_frame_pool := queue_push_back s2.q_frame_pool frame },
          [Event.can_receive frame false])
    else
      ({ s1 with q_frame_pool := queue_push_back s1.q_frame_pool frame }, [])
  else
    (s, [])

/-- Lines 141-153 of `main`: report a changed bus error status. -/
def main_error_status (e : Env) (s : State) : State × List Event :=
  let can_err := e.can_get_error_status
  if can_err ≠ s.last_can_error_status then
    let r := queue_pop_front s.q_frame_pool
    let frame := r.1
    let s1 := { s with q_frame_pool := r.2 }
    if frame.isSome then
      let pr := e.can_parse_error_status can_err (frame_at s1 frame)
      let s2 := frame_store s1 frame pr.2
      if pr.1 then
        let r2 := send_to_host_or_enqueue e.usb_transmit_err frame s2
        ({ r2.2.1 with last_can_error_status := can_err },
          Event.can_parse_error_status can_err frame true :: r2.2.2)
      else
        ({ s2 with q_frame_pool := queue_push_back s2.q_frame_pool frame },
          [Event.can_parse_error_status can_err frame false])
    else
      (s1, [])
  else
    (s, [])

/-- The four steps of one loop iteration, in program order, and the closing
`led_update` call. -/
inductive Step where
  | host_to_bus
  | outbound_drain
  | bus_to_host
  | error_status
  | led
deriving DecidableEq

/-- The calls of one step, each labelled with the step that made it. -/
def tag (st : Step) (evs : List Event) : List (Step × Event) :=
  evs.map (fun ev => (st, ev))

/-- One iteration of the `while (1)` loop of `main` (lines 97-157). -/
def main_loop_body (e : Env) (s : State) : State × List (Step × Event) :=
  let r1 := main_host_to_bus e s
  let r2 := main_outbound_drain e r1.1
  let r3 := main_bus_to_host e r2.1
  let r4 := main_error_status e r3.1
  (r4.1, tag Step.host_to_bus r1.2 ++ tag Step.outbound_drain r2.2 ++
    tag Step.bus_to_host r3.2 ++ tag Step.error_status r4.2 ++ [(Step.led, Event.led_update)])

/-- The slab pointers `&msgbuf[0]`, ..., `&msgbuf[n-1]` in index order. -/
def slab_ptrs (n : Nat) : List FramePtr := (List.range n).map some

/-- Lines 65-85 of `main`: the state on entry to the loop, for a slab of
`CAN_QUEUE_SIZE` frames (the constant of `config.h`, not among the sources, is
a parameter).  The three queues are created with capacity `CAN_QUEUE_SIZE`,
the slab is zero-initialised by `calloc`, and each slab frame is pushed to the
back of `q_frame_pool`. -/
def main_init (CAN_QUEUE_SIZE : Nat) : State :=
  { q_frame_pool := (slab_ptrs CAN_QUEUE_SIZE).foldl queue_push_back (queue_create CAN_QUEUE_SIZE)
    q_from_host := queue_create CAN_QUEUE_SIZE
    q_to_host := queue_create CAN_QUEUE_SIZE
    msgbuf := List.replicate CAN_QUEUE_SIZE
      { echo_id := 0, can_id := 0, can_dlc := 0, channel := 0, flags := 0, reserved := 0, data := [] }
    last_can_error_status := 0 }

/-- Modelled from the spec: a host submission, made by the USB transport of
`usbd_gs_can.c` (not among the sources), which was given `q_frame_pool` and
`q_from_host` at line 89.  The transport acquires a frame with
`pop_front(pool)`; if none is available nothing is submitted; otherwise it
fills the frame and pushes it to the back of `inbound`. -/
def host_submit (v : gs_host_frame) (s : State) : State :=
  let r := queue_pop_front s.q_frame_pool
  let s1 := { s with q_frame_pool := r.2 }
  if r.1.isSome then
    let s2 := frame_store s1 r.1 v
    { s2 with q_from_host := queue_push_back s2.q_from_host r.1 }
  else
    s1

/-- What happens between two observation points: one loop iteration with the
given collaborator answers, or one host submission. -/
inductive Action where
  | iterate (e : Env)
  | submit (v : gs_host_frame)

/-- One action: the new state and the collaborator calls made. -/
def Action.apply (a : Action) (s : State) : State × List (Step × Event) :=
  match a with
  | Action.iterate e => main_loop_body e s
  | Action.submit v => (host_submit v s, [])

/-- A run: the actions are performed in order; the result is the final state
and the calls made, in order. -/
def run (acts : List Action) (s : State) : State × List (Step × Event) :=
  match acts with
  | [] => (s, [])
  | a :: rest =>
    let r := a.apply s
    let r2 := run rest r.1
    (r2.1, r.2 ++ r2.2)

/-! ## Observations used by the properties -/

/-- A queue holds no more entries than its capacity.  Every queue made by
`queue_create` and the queue operations has this property. -/
def queue_wf (q : queue_t) : Prop := queue_size q ≤ q.max_elements

instance (q : queue_t) : Decidable (queue_wf q) := by
  unfold queue_wf; infer_instance

/-- A queue is strictly below its capacity, so the next push succeeds. -/
def has_room (q : queue_t) : Prop := queue_size q < q.max_elements

instance (q : queue_t) : Decidable (has_room q) := by
  unfold has_room; infer_instance

/-- The slab frames a queue holds (its non-null entries), in queue order. -/
def queue_frames (q : queue_t) : List Nat := q.buf.reduceOption

/-- The sum `size(pool) + size(inbound) + size(outbound)`. -/
def total_size (s : State) : Nat :=
  queue_size s.q_frame_pool + queue_size s.q_from_host + queue_size s.q_to_host

/-- The concatenation of pool, inbound and outbound. -/
def all_entries (s : State) : List FramePtr :=
  s.q_frame_pool.buf ++ s.q_from_host.buf ++ s.q_to_host.buf

/-- Whether a call is a host transmit attempt. -/
def Event.is_host_transmit (ev : Event) : Bool :=
  match ev with
  | Event.USBD_GS_CAN_Transmit _ _ _ => true
  | _ => false

/-! ## Concrete collaborator behaviours used in the examples -/

/-- Nothing happens: bus and transport refuse everything, no reception is
pending and the error status is 0. -/
def env_idle : Env :=
  { can_send := fun _ => false, usb_transmit_echo := false, USBD_GS_CAN_TxReady := false,
    usb_transmit_drain := false, can_is_rx_pending := false,
    can_receive := fun v => (false, v), usb_transmit_rx := false, can_get_error_status := 0,
    can_parse_error_status := fun _ v => (false, v), usb_transmit_err := false }

/-- A reception with arbitration id `id` is pending and is received, while the
host transport is busy. -/
def env_rx_busy (id : Nat) : Env :=
  { env_idle with
    can_is_rx_pending := true
    can_receive := fun v => (true, { v with can_id := id }) }

/-- A reception with arbitration id `id` is pending and is received; the
transport was not ready at line 111 but accepts the frame at line 131. -/
def env_rx_accept (id : Nat) : Env :=
  { env_rx_busy id with usb_transmit_rx := true }

/-- The bus reports a pending reception, the transport is busy. -/
def env_rx_pending : Env :=
  { env_idle with can_is_rx_pending := true }

/-- The transport is ready and accepts the frame offered by the outbound
drain. -/
def env_drain_ok : Env :=
  { env_idle with USBD_GS_CAN_TxReady := true, usb_transmit_drain := true }

/-- The transport is ready but refuses the frame offered by the outbound
drain. -/
def env_drain_busy : Env :=
  { env_idle with USBD_GS_CAN_TxReady := true, usb_transmit_drain := false }

/-- The bus accepts the host frame, and the transport accepts its echo. -/
def env_bus_ok : Env :=
  { env_idle with can_send := fun _ => true, usb_transmit_echo := true }

/-- The bus reports error status `code`; formatting succeeds and the
transport accepts the report. -/
def env_status (code : Nat) : Env :=
  { env_idle with
    can_get_error_status := code
    can_parse_error_status := fun c v => (true, { v with can_id := c })
    usb_transmit_err := true }

/-- The bus reports error status `code` but the driver fails to format it. -/
def env_status_unformattable (code : Nat) : Env :=
  { env_idle with can_get_error_status := code }

/-- A host frame with arbitration id `id`. -/
def host_frame (id : Nat) : gs_host_frame :=
  { echo_id := 1, can_id := id, can_dlc := 0, channel := 0, flags := 0, reserved := 0, data := [] }

/-! ## Concrete states used in the examples, all reached from startup -/

/-- Slab of two frames; one reception was deferred: pool holds frame 1 and
outbound holds frame 0. -/
def state_one_deferred : State :=
  (run [Action.iterate (env_rx_busy 1)] (main_init 2)).1

/-- Slab of two frames; two receptions were deferred while the transport was
busy: pool is empty and outbound holds frames 0 and 1. -/
def state_pool_exhausted : State :=
  (run [Action.iterate (env_rx_busy 1), Action.iterate (env_rx_busy 2)] (main_init 2)).1

/-- Slab of one frame; the reception was deferred (pool empty), then the bus
reported another pending reception: pool holds one null entry and is at its
capacity, outbound holds frame 0. -/
def state_null_in_pool : State :=
  (run [Action.iterate (env_rx_busy 1), Action.iterate env_rx_pending] (main_init 1)).1

/-- Slab of one frame; the host submitted a frame (pool empty), the bus
refused it and reported a pending reception: pool holds one null entry and is
at its capacity, inbound holds frame 0. -/
def state_host_frame_waiting : State :=
  (run [Action.submit (host_frame 1), Action.iterate env_rx_pending] (main_init 1)).1

/-- The state in which line 103 calls `send_to_host_or_enqueue` when the loop
runs from `state_host_frame_waiting` and the bus accepts the frame: frame 0 has
been popped from inbound. -/
def state_host_frame_in_hand : State :=
  { state_host_frame_waiting with
    q_from_host := (queue_pop_front state_host_frame_waiting.q_from_host).2 }

/-- The state `main_init 2` after frame 0 has been popped from pool. -/
def state_frame_in_hand : State :=
  { main_init 2 with q_frame_pool := (queue_pop_front (main_init 2).q_frame_pool).2 }

/-! ## Ownership bookkeeping -/

/-- Number of occurrences of a pointer in the concatenation of pool, inbound
and outbound. -/
def occ (x : FramePtr) (s : State) : Nat := (all_entries s).count x

/-- Number of null entries in inbound and outbound. -/
def nulls (s : State) : Nat := s.q_from_host.buf.count none + s.q_to_host.buf.count none

/-- The three queues of `t` have the capacities of those of `s`. -/
def same_caps (s t : State) : Prop :=
  t.q_frame_pool.max_elements = s.q_frame_pool.max_elements ∧
  t.q_from_host.max_elements = s.q_from_host.max_elements ∧
  t.q_to_host.max_elements = s.q_to_host.max_elements

/-- From `s` to `t` no frame reference was created: no slab frame occurs more
often in the queues of `t` than in those of `s`, inbound and outbound gained
no null entry, and the capacities are those of `s`. -/
def Shrinks (s t : State) : Prop :=
  (∀ i : Nat, occ (some i) t ≤ occ (some i) s) ∧ nulls t ≤ nulls s ∧ same_caps s t

/-- The run that exhausts pool and then polls once more: `n` iterations in
which a reception is pending and received while the host transport is busy,
then one iteration in which a reception is pending. -/
def acts_exhaust_pool (n : Nat) : List Action :=
  List.replicate n (Action.iterate (env_rx_busy 0)) ++ [Action.iterate env_rx_pending]

/-! ## Reading the record of collaborator calls -/

/-- The bus transmit attempts among some calls, in order: the frame offered
to `can_send` and whether the bus accepted it. -/
def bus_log (evs : List Event) : List (FramePtr × Bool) :=
  evs.filterMap (fun ev =>
    match ev with
    | Event.can_send frame ok => some (frame, ok)
    | _ => none)

/-- The bus transmit attempts of a run, in order. -/
def bus_attempts (tr : List (Step × Event)) : List (FramePtr × Bool) :=
  bus_log (tr.map Prod.snd)

/-- The frames for which the bus transmit succeeded, in order. -/
def bus_sent (tr : List (Step × Event)) : List FramePtr :=
  ((bus_attempts tr).filter (fun x => x.2)).map (fun x => x.1)

/-- A run made of loop iterations only (no host submission in between). -/
def iterations (es : List Env) : List Action := es.map Action.iterate

/-- The bus refuses the host frame in this iteration. -/
def env_bus_busy : Env := env_idle

/-- Slab of two frames after the host submitted two frames: inbound holds
frames 0 (A) and 1 (B), pool is empty. -/
def state_two_submitted : State :=
  (run [Action.submit (host_frame 10), Action.submit (host_frame 11)] (main_init 2)).1

/-- The error-frame formatting calls among some calls, in order: the status
code passed to `can_parse_error_status` and whether formatting succeeded. -/
def err_log (evs : List Event) : List (Nat × Bool) :=
  evs.filterMap (fun ev =>
    match ev with
    | Event.can_parse_error_status err _ ok => some (err, ok)
    | _ => none)

/-- The status codes of the error-report frames generated during a run
(formatting succeeded), in order. -/
def error_reports (tr : List (Step × Event)) : List Nat :=
  ((err_log (tr.map Prod.snd)).filter (fun x => x.2)).map (fun x => x.1)

/-- Number of error-report frames generated during a run. -/
def error_reports_generated (tr : List (Step × Event)) : Nat := (error_reports tr).length

/-- Whether a call is the host transmit made by `send_to_host_or_enqueue` at
line 146, that is, an error report routed to Send-or-Requeue. -/
def is_routed_error_report (x : Step × Event) : Bool :=
  match x with
  | (Step.error_status, Event.USBD_GS_CAN_Transmit _ _ _) => true
  | _ => false

/-- Number of error-report frames routed to Send-or-Requeue during a run. -/
def error_reports_routed (tr : List (Step × Event)) : Nat := tr.countP is_routed_error_report

/-- Number of positions at which a status differs from its predecessor, the
first being compared with `prev`. -/
def status_changes (prev : Nat) : List Nat → Nat
  | [] => 0
  | x :: xs => (if x ≠ prev then 1 else 0) + status_changes x xs

/-- The bus error-status codes read in the iterations of a run, in order. -/
def statuses (acts : List Action) : List Nat :=
  acts.filterMap (fun a =>
    match a with
    | Action.iterate e => some e.can_get_error_status
    | Action.submit _ => none)

/-- The state in which the error-status step of an iteration starts. -/
def before_error_status (e : Env) (s : State) : State :=
  (main_bus_to_host e (main_outbound_drain e (main_host_to_bus e s).1).1).1

/-- In this iteration a pool frame is available at the error step and the
driver formats the error frame. -/
def error_step_succeeds (e : Env) (s : State) : Bool :=
  ((queue_pop_front (before_error_status e s).q_frame_pool).1).isSome &&
    (e.can_parse_error_status e.can_get_error_status
      (frame_at (before_error_status e s)
        (queue_pop_front (before_error_status e s).q_frame_pool).1)).1

/-- In every iteration of the run in which the status read differs from the
remembered one, a pool frame is available at the error step and formatting
succeeds. -/
def error_steps_succeed : List Action → State → Bool
  | [], _ => true
  | Action.iterate e :: rest, s =>
    (decide (e.can_get_error_status = s.last_can_error_status) || error_step_succeeds e s) &&
      error_steps_succeed rest (main_loop_body e s).1
  | Action.submit v :: rest, s => error_steps_succeed rest (host_submit v s)

/-- The run of the error edge-triggering scenario: six iterations in which the
bus reports the statuses 0, 0, 5, 5, 5, 0, formatting succeeds and the
transport accepts. -/
def acts_status_scenario : List Action :=
  [0, 0, 5, 5, 5, 0].map (fun c => Action.iterate (env_status c))

/-- A run with failures: status 5 cannot be formatted in the first iteration,
is reported in the second, stays in the third, and status 0 is reported in
the fourth while the transport is busy. -/
def acts_status_retry : List Action :=
  [Action.iterate (env_status_unformattable 5), Action.iterate (env_status 5),
   Action.iterate (env_status 5),
   Action.iterate { env_status 0 with usb_transmit_err := false }]

/-- The frames the host transport accepted during a run, as the bytes it was
given, in order of acceptance. -/
def host_accepted (tr : List (Step × Event)) : List gs_host_frame :=
  tr.filterMap (fun x =>
    match x.2 with
    | Event.USBD_GS_CAN_Transmit _ bytes true => some bytes
    | _ => none)

/-- The frames a step handed to `send_to_host_or_enqueue` and the transport
refused, which the function then pushed to the back of outbound. -/
def deferred_log (evs : List Event) : List FramePtr :=
  evs.filterMap (fun ev =>
    match ev with
    | Event.USBD_GS_CAN_Transmit frame _ false => some frame
    | _ => none)

/-- The frames the transport accepted among some calls. -/
def accepted_log (evs : List Event) : List FramePtr :=
  evs.filterMap (fun ev =>
    match ev with
    | Event.USBD_GS_CAN_Transmit frame _ true => some frame
    | _ => none)

/-- The frames deferred to outbound during a run, in order: the refused
transmit attempts of `send_to_host_or_enqueue` (lines 103, 131 and 146). -/
def deferred (tr : List (Step × Event)) : List FramePtr :=
  deferred_log ((tr.filter (fun x => decide (x.1 ≠ Step.outbound_drain))).map Prod.snd)

/-- The frames the transport accepted from outbound during a run, in order:
the accepted transmit attempts of the outbound drain (line 115). -/
def drained (tr : List (Step × Event)) : List FramePtr :=
  accepted_log ((tr.filter (fun x => decide (x.1 = Step.outbound_drain))).map Prod.snd)

/-- The run in which a later reception overtakes an earlier one: reception R1
(arbitration id 1) is deferred because the transport is busy; in the next
iteration the transport is not ready at the drain step but accepts reception
R2 (arbitration id 2) at line 131; R1 is drained one iteration later. -/
def acts_overtake : List Action :=
  [Action.iterate (env_rx_busy 1), Action.iterate (env_rx_accept 2), Action.iterate env_drain_ok]

/-- A received frame with arbitration id `id`, stamped by lines 127-130. -/
def rx_frame (id : Nat) : gs_host_frame :=
  { echo_id := 0xFFFFFFFF, can_id := id, can_dlc := 0, channel := 0, flags := 0, reserved := 0,
    data := [] }

/-- The ownership invariant of the states reached from startup with a slab of
`n` frames: compared with the startup state no frame reference was created,
so every slab frame is held at most once, inbound and outbound hold no null
entry, and the capacities are `n`. -/
def Inv (n : Nat) (s : State) : Prop := Shrinks (main_init n) s

/-- Slab of two frames after the host submitted one frame: inbound holds
frame 0 (F1), pool holds frame 1, outbound is empty. -/
def state_one_submitted : State :=
  (run [Action.submit (host_frame 1)] (main_init 2)).1

/-- A pointer is a non-null pointer to one of the `n` slab frames. -/
def slab_frame (n : Nat) (f : FramePtr) : Prop :=
  match f with
  | some i => i < n
  | none => False

/-- The frame pointer a collaborator call hands over, if any, is a non-null
pointer to one of the `n` slab frames. -/
def Event.frame_valid (n : Nat) (ev : Event) : Prop :=
  match ev with
  | Event.can_send frame _ => slab_frame n frame
  | Event.USBD_GS_CAN_Transmit frame _ _ => slab_frame n frame
  | Event.can_receive frame _ => slab_frame n frame
  | Event.can_parse_error_status _ frame _ => slab_frame n frame
  | Event.led_indicate_trx _ => True
  | Event.led_update => True

/-- The bus reports error status `code`, formatting succeeds, and the host
transport is busy, so the report is only queued in outbound. -/
def env_status_queued (code : Nat) : Env :=
  { env_status code with usb_transmit_err := false }

/-- The run that fills pool up to its capacity with one null entry in it:
pool is exhausted and polled once more (`acts_exhaust_pool n`), then `k`
iterations in which the transport is ready and accepts the frame offered by
the outbound drain. -/
def acts_refill_pool (n k : Nat) : List Action :=
  acts_exhaust_pool n ++ List.replicate k (Action.iterate env_drain_ok)

/-- A state reached from startup with a slab of `n + 1` frames in which pool
is at its capacity (one null entry and the frames 0 to `n - 1`) while frame
`n` waits in outbound. -/
def state_pool_full (n : Nat) : State :=
  (run (acts_refill_pool (n + 1) n) (main_init (n + 1))).1

/-! ## Theorems -/

/-! ### Queue operations -/

theorem queue_push_back_room (q : queue_t) (el : FramePtr) (h : has_room q) :
    queue_push_back q el = { q with buf := q.buf ++ [el] } := by
  unfold has_room at h
  simp [queue_push_back, h]

theorem queue_push_front_room (q : queue_t) (el : FramePtr) (h : has_room q) :
    queue_push_front q el = { q with buf := el :: q.buf } := by
  unfold has_room at h
  simp [queue_push_front, h]

theorem queue_pop_front_cons (q : queue_t) (el : FramePtr) (rest : List FramePtr)
    (h : q.buf = el :: rest) : queue_pop_front q = (el, { q with buf := rest }) := by
  simp [queue_pop_front, h]

theorem queue_pop_front_nil (q : queue_t) (h : q.buf = []) : queue_pop_front q = (none, q) := by
  simp [queue_pop_front, h]

/-! ### The single steps -/

/-- C5 (as the code behaves): when the bus reports a pending reception and
pool is empty, the bus-to-host step calls no collaborator and leaves inbound
and outbound alone, but it does not leave pool alone: the `else` branch at
line 136 pushes the null pointer returned by `queue_pop_front`, so pool ends
with one (null) entry instead of staying empty. -/
theorem C5_rx_pending_empty_pool_pushes_null (e : Env) (s : State)
    (hpend : e.can_is_rx_pending = true) (hempty : s.q_frame_pool.buf = [])
    (hcap : 0 < s.q_frame_pool.max_elements) :
    (main_bus_to_host e s).2 = [] ∧
      (main_bus_to_host e s).1.q_frame_pool.buf = [none] ∧
      queue_size (main_bus_to_host e s).1.q_frame_pool = 1 ∧
      (main_bus_to_host e s).1.q_from_host = s.q_from_host ∧
      (main_bus_to_host e s).1.q_to_host = s.q_to_host := by
  simp [main_bus_to_host, hpend, queue_pop_front, hempty, queue_push_back, queue_size, hcap]

/-- C5 at a state reached from startup: after two deferred receptions the pool
of a two-frame slab is empty, and the next pending reception puts a null entry
into it. -/
theorem C5_rx_pending_empty_pool_pushes_null_witness :
    (env_rx_pending.can_is_rx_pending = true ∧ state_pool_exhausted.q_frame_pool.buf = [] ∧
      0 < state_pool_exhausted.q_frame_pool.max_elements) ∧
    (main_bus_to_host env_rx_pending state_pool_exhausted).1.q_frame_pool.buf = [none] :=
  ⟨by decide,
    (C5_rx_pending_empty_pool_pushes_null env_rx_pending state_pool_exhausted
      (by decide) (by decide) (by decide)).2.1⟩

/-- C6 (as the code behaves): in the state in which line 103 hands frame 0 to
`send_to_host_or_enqueue` (reached from startup with a one-frame slab: one
host submission, then an iteration in which the bus refuses the frame and
reports a pending reception), pool is at its capacity because it holds the
null pointer pushed at line 136.  The transport accepts the frame, the push of
line 54 fails, and pool does not become `pool ++ [f]`: the frame ends in no
queue. -/
theorem C6_accepted_frame_lost_on_full_pool :
    state_host_frame_in_hand.q_frame_pool = { max_elements := 1, buf := [none] } ∧
      (send_to_host_or_enqueue true (some 0) state_host_frame_in_hand).2.1.q_frame_pool.buf
        ≠ state_host_frame_in_hand.q_frame_pool.buf ++ [some 0] ∧
      all_entries (send_to_host_or_enqueue true (some 0) state_host_frame_in_hand).2.1 = [none] ∧
      (main_host_to_bus env_bus_ok state_host_frame_waiting).1
        = (send_to_host_or_enqueue true (some 0) state_host_frame_in_hand).2.1 := by
  decide

/-- What `send_to_host_or_enqueue` does when the target queue (pool if the
transport accepts, outbound if it is busy) is below its capacity: exactly one
host-transmit attempt with `f`, the return value is the transport's answer;
if accepted, pool becomes `pool ++ [f]` and outbound is unchanged; if busy,
outbound becomes `outbound ++ [f]` and pool is unchanged; inbound is unchanged
in both cases. -/
theorem send_to_host_or_enqueue_with_room (usbd_ok : Bool) (frame : FramePtr) (s : State)
    (hroom : has_room (if usbd_ok then s.q_frame_pool else s.q_to_host)) :
    (send_to_host_or_enqueue usbd_ok frame s).2.2
        = [Event.USBD_GS_CAN_Transmit frame (frame_at s frame) usbd_ok] ∧
      (send_to_host_or_enqueue usbd_ok frame s).1 = usbd_ok ∧
      (send_to_host_or_enqueue usbd_ok frame s).2.1.q_from_host = s.q_from_host ∧
      (if usbd_ok then
        (send_to_host_or_enqueue usbd_ok frame s).2.1.q_frame_pool.buf
          = s.q_frame_pool.buf ++ [frame] ∧
        (send_to_host_or_enqueue usbd_ok frame s).2.1.q_to_host = s.q_to_host
      else
        (send_to_host_or_enqueue usbd_ok frame s).2.1.q_to_host.buf
          = s.q_to_host.buf ++ [frame] ∧
        (send_to_host_or_enqueue usbd_ok frame s).2.1.q_frame_pool = s.q_frame_pool) := by
  cases usbd_ok <;> simp at hroom <;>
    simp [send_to_host_or_enqueue, queue_push_back_room _ _ hroom]

/-- Frame 0 of a two-frame slab, just popped from pool, is accepted by the
transport and goes to the back of pool. -/
theorem send_to_host_or_enqueue_with_room_example :
    has_room (if true then state_frame_in_hand.q_frame_pool else state_frame_in_hand.q_to_host) ∧
    (send_to_host_or_enqueue true (some 0) state_frame_in_hand).2.1.q_frame_pool.buf
      = [some 1, some 0] :=
  ⟨by decide,
    (send_to_host_or_enqueue_with_room true (some 0) state_frame_in_hand (by decide)).2.2.2.1⟩

/-- C7 (as the code behaves): in a state reached from startup by the loop
alone (one-frame slab; a reception is deferred, then the bus reports another
pending reception) pool is at its capacity because it holds the null pointer
pushed at line 136, and frame 0 waits in outbound.  The transport is ready and
accepts the head of outbound, outbound becomes its tail, the push of line 116
fails, and pool does not become `pool ++ [h]`: the frame ends in no queue. -/
theorem C7_drained_frame_lost_on_full_pool :
    state_null_in_pool.q_frame_pool = { max_elements := 1, buf := [none] } ∧
      state_null_in_pool.q_to_host.buf = [some 0] ∧
      (main_outbound_drain env_drain_ok state_null_in_pool).1.q_to_host.buf = [] ∧
      (main_outbound_drain env_drain_ok state_null_in_pool).1.q_frame_pool.buf
        ≠ state_null_in_pool.q_frame_pool.buf ++ [some 0] ∧
      all_entries (main_outbound_drain env_drain_ok state_null_in_pool).1 = [none] := by
  decide

/-- What the outbound drain does for a well-formed outbound queue, and pool
below its capacity when the transport accepts: if the host transport is not
ready, or outbound is empty, the step makes no transmit attempt and changes
nothing; otherwise it pops exactly the head `h` of outbound and attempts one
host transmit of `h`: on success outbound becomes its tail and pool becomes
`pool ++ [h]`; on failure the whole state is exactly what it was before. -/
theorem main_outbound_drain_with_room (e : Env) (s : State) (hwf : queue_wf s.q_to_host)
    (hroom : e.usb_transmit_drain = true → has_room s.q_frame_pool) :
    if e.USBD_GS_CAN_TxReady = true ∧ s.q_to_host.buf ≠ [] then
      ∃ h t, s.q_to_host.buf = h :: t ∧
        (main_outbound_drain e s).2
          = [Event.USBD_GS_CAN_Transmit h (frame_at s h) e.usb_transmit_drain] ∧
        (if e.usb_transmit_drain = true then
          (main_outbound_drain e s).1.q_to_host.buf = t ∧
          (main_outbound_drain e s).1.q_frame_pool.buf = s.q_frame_pool.buf ++ [h] ∧
          (main_outbound_drain e s).1.q_from_host = s.q_from_host
        else (main_outbound_drain e s).1 = s)
    else main_outbound_drain e s = (s, []) := by
  obtain ⟨pool, inb, ⟨cap, out⟩, mem, last⟩ := s
  cases hready : e.USBD_GS_CAN_TxReady
  · simp [main_outbound_drain, hready]
  · cases out with
    | nil => simp [main_outbound_drain, hready, queue_size]
    | cons h t =>
      cases hok : e.usb_transmit_drain
      · have hlt : t.length < cap := by
          simp [queue_wf, queue_size] at hwf; omega
        refine ⟨h, t, ?_⟩
        simp [main_outbound_drain, hready, queue_size, queue_pop_front, hok, queue_push_front,
          hlt, frame_at]
      · have hr := hroom hok
        simp [has_room, queue_size] at hr
        refine ⟨h, t, ?_⟩
        simp [main_outbound_drain, hready, queue_size, queue_pop_front, hok, queue_push_back,
          hr, frame_at]

/-- With frame 1 in pool and frame 0 in outbound, a ready and accepting
transport moves frame 0 to the back of pool. -/
theorem main_outbound_drain_with_room_example :
    (queue_wf state_one_deferred.q_to_host ∧
      (env_drain_ok.usb_transmit_drain = true → has_room state_one_deferred.q_frame_pool)) ∧
    (if env_drain_ok.USBD_GS_CAN_TxReady = true ∧ state_one_deferred.q_to_host.buf ≠ [] then
      ∃ h t, state_one_deferred.q_to_host.buf = h :: t ∧
        (main_outbound_drain env_drain_ok state_one_deferred).2
          = [Event.USBD_GS_CAN_Transmit h (frame_at state_one_deferred h)
              env_drain_ok.usb_transmit_drain] ∧
        (if env_drain_ok.usb_transmit_drain = true then
          (main_outbound_drain env_drain_ok state_one_deferred).1.q_to_host.buf = t ∧
          (main_outbound_drain env_drain_ok state_one_deferred).1.q_frame_pool.buf
            = state_one_deferred.q_frame_pool.buf ++ [h] ∧
          (main_outbound_drain env_drain_ok state_one_deferred).1.q_from_host
            = state_one_deferred.q_from_host
        else (main_outbound_drain env_drain_ok state_one_deferred).1 = state_one_deferred)
    else main_outbound_drain env_drain_ok state_one_deferred = (state_one_deferred, [])) :=
  ⟨⟨by decide, fun _ => by decide⟩,
    main_outbound_drain_with_room env_drain_ok state_one_deferred (by decide)
      (fun _ => by decide)⟩

/-- C10: in the error-status step on a well-formed pool, if the current status
differs from the remembered one but no pool frame is available or the driver
fails to format the error frame, then the remembered status is unchanged, no
host transmit is attempted, outbound and inbound are unchanged, and pool holds
the same frames as before the step; and the remembered status changes only to
the current status, and only when a frame was acquired and formatting
succeeded. -/
theorem C10_sticky_error_status (e : Env) (s : State) (hwf : queue_wf s.q_frame_pool) :
    (e.can_get_error_status ≠ s.last_can_error_status →
      ((queue_pop_front s.q_frame_pool).1 = none ∨
        (e.can_parse_error_status e.can_get_error_status
          (frame_at s (queue_pop_front s.q_frame_pool).1)).1 = false) →
      (main_error_status e s).1.last_can_error_status = s.last_can_error_status ∧
      (∀ ev ∈ (main_error_status e s).2, ev.is_host_transmit = false) ∧
      (main_error_status e s).1.q_to_host = s.q_to_host ∧
      (main_error_status e s).1.q_from_host = s.q_from_host ∧
      (queue_frames (main_error_status e s).1.q_frame_pool).Perm (queue_frames s.q_frame_pool)) ∧
    ((main_error_status e s).1.last_can_error_status ≠ s.last_can_error_status →
      (main_error_status e s).1.last_can_error_status = e.can_get_error_status ∧
      (queue_pop_front s.q_frame_pool).1 ≠ none ∧
      (e.can_parse_error_status e.can_get_error_status
          (frame_at s (queue_pop_front s.q_frame_pool).1)).1 = true) := by
  obtain ⟨⟨cap, pool⟩, inb, out, mem, last⟩ := s
  by_cases hd : e.can_get_error_status = last
  · simp [main_error_status, hd]
  · cases pool with
    | nil => simp [main_error_status, hd, queue_pop_front]
    | cons h t =>
      cases h with
      | none => simp [main_error_status, hd, queue_pop_front, queue_frames]
      | some i =>
        have hlt : t.length < cap := by
          simp [queue_wf, queue_size] at hwf; omega
        cases hf : (e.can_parse_error_status e.can_get_error_status (mem[i]?.getD default)).1
        · simp [main_error_status, hd, queue_pop_front, frame_at, hf, frame_store,
            queue_push_back, queue_size, hlt, queue_frames, Event.is_host_transmit,
            List.reduceOption_append, List.perm_append_singleton]
        · simp [main_error_status, hd, queue_pop_front, frame_at, hf, frame_store,
            send_to_host_or_enqueue]

/-- C10 at concrete inputs: with frames 0 and 1 in pool and status 5 that the
driver cannot format, the remembered status stays 0 and pool holds the same
two frames; with an empty pool nothing changes either. -/
theorem C10_sticky_error_status_witness :
    (queue_wf (main_init 2).q_frame_pool ∧
      (env_status_unformattable 5).can_get_error_status ≠ (main_init 2).last_can_error_status ∧
      ((env_status_unformattable 5).can_parse_error_status 5
        (frame_at (main_init 2) (queue_pop_front (main_init 2).q_frame_pool).1)).1 = false) ∧
    ((main_error_status (env_status_unformattable 5) (main_init 2)).1.last_can_error_status = 0 ∧
      (main_error_status (env_status_unformattable 5) (main_init 2)).1.q_frame_pool.buf
        = [some 1, some 0] ∧
      (queue_frames (main_error_status (env_status_unformattable 5) (main_init 2)).1.q_frame_pool).Perm
        (queue_frames (main_init 2).q_frame_pool)) ∧
    (queue_wf state_pool_exhausted.q_frame_pool ∧
      (queue_pop_front state_pool_exhausted.q_frame_pool).1 = none ∧
      (main_error_status (env_status 5) state_pool_exhausted).1.last_can_error_status
        = state_pool_exhausted.last_can_error_status) :=
  ⟨by decide,
    ⟨((C10_sticky_error_status (env_status_unformattable 5) (main_init 2) (by decide)).1
        (by decide) (Or.inr (by decide))).1,
      by decide,
      ((C10_sticky_error_status (env_status_unformattable 5) (main_init 2) (by decide)).1
        (by decide) (Or.inr (by decide))).2.2.2.2⟩,
    by decide, by decide,
    ((C10_sticky_error_status (env_status 5) state_pool_exhausted (by decide)).1
      (by decide) (Or.inl (by decide))).1⟩

/-! ### Nothing is created -/

theorem Shrinks.refl (s : State) : Shrinks s s :=
  ⟨fun _ => le_rfl, le_rfl, rfl, rfl, rfl⟩

theorem Shrinks.trans {s t u : State} (h1 : Shrinks s t) (h2 : Shrinks t u) : Shrinks s u := by
  obtain ⟨a1, b1, c1, d1, e1⟩ := h1
  obtain ⟨a2, b2, c2, d2, e2⟩ := h2
  exact ⟨fun i => le_trans (a2 i) (a1 i), le_trans b2 b1, c2.trans c1, d2.trans d1, e2.trans e1⟩

theorem main_host_to_bus_shrinks (e : Env) (s : State) : Shrinks s (main_host_to_bus e s).1 := by
  obtain ⟨⟨cp, pool⟩, ⟨ci, inb⟩, ⟨co, out⟩, mem, last⟩ := s
  unfold Shrinks occ nulls same_caps all_entries main_host_to_bus send_to_host_or_enqueue
    queue_pop_front queue_push_back queue_push_front queue_size
  cases inb with
  | nil => simp
  | cons h t =>
    cases h with
    | none => simp
    | some j =>
      simp only [Option.isSome_some, if_true]
      refine ⟨fun i => ?_, ?_, ?_⟩
      all_goals (repeat' (first | omega | assumption | simp [List.count_cons] | split_ifs))

theorem main_outbound_drain_shrinks (e : Env) (s : State) :
    Shrinks s (main_outbound_drain e s).1 := by
  obtain ⟨⟨cp, pool⟩, ⟨ci, inb⟩, ⟨co, out⟩, mem, last⟩ := s
  unfold Shrinks occ nulls same_caps all_entries main_outbound_drain
    queue_pop_front queue_push_back queue_push_front queue_size
  cases out with
  | nil => simp
  | cons h t =>
    refine ⟨fun i => ?_, ?_, ?_⟩
    all_goals (repeat' (first | omega | assumption | simp [List.count_cons] | split_ifs))

theorem main_bus_to_host_shrinks (e : Env) (s : State) :
    Shrinks s (main_bus_to_host e s).1 := by
  obtain ⟨⟨cp, pool⟩, ⟨ci, inb⟩, ⟨co, out⟩, mem, last⟩ := s
  unfold Shrinks occ nulls same_caps all_entries main_bus_to_host send_to_host_or_enqueue
    queue_pop_front queue_push_back queue_size frame_store
  cases pool with
  | nil =>
    refine ⟨fun i => ?_, ?_, ?_⟩
    all_goals (repeat' (first | omega | assumption | simp [List.count_cons] | split_ifs))
  | cons h t =>
    cases h with
    | none =>
      refine ⟨fun i => ?_, ?_, ?_⟩
      all_goals (repeat' (first | omega | assumption | simp [List.count_cons] | split_ifs))
    | some j =>
      simp only [Option.isSome_some, if_true]
      refine ⟨fun i => ?_, ?_, ?_⟩
      all_goals (repeat' (first | omega | assumption | simp [List.count_cons] | split_ifs))

theorem main_error_status_shrinks (e : Env) (s : State) :
    Shrinks s (main_error_status e s).1 := by
  obtain ⟨⟨cp, pool⟩, ⟨ci, inb⟩, ⟨co, out⟩, mem, last⟩ := s
  unfold Shrinks occ nulls same_caps all_entries main_error_status send_to_host_or_enqueue
    queue_pop_front queue_push_back queue_size frame_store
  cases pool with
  | nil =>
    refine ⟨fun i => ?_, ?_, ?_⟩
    all_goals (repeat' (first | omega | assumption | simp [List.count_cons]))
  | cons h t =>
    cases h with
    | none =>
      refine ⟨fun i => ?_, ?_, ?_⟩
      all_goals (repeat' (first | omega | assumption | simp [List.count_cons] | split_ifs))
    | some j =>
      simp only [Option.isSome_some, if_true]
      refine ⟨fun i => ?_, ?_, ?_⟩
      all_goals (repeat' (first | omega | assumption | simp [List.count_cons] | split_ifs))

theorem host_submit_shrinks (v : gs_host_frame) (s : State) : Shrinks s (host_submit v s) := by
  obtain ⟨⟨cp, pool⟩, ⟨ci, inb⟩, ⟨co, out⟩, mem, last⟩ := s
  unfold Shrinks occ nulls same_caps all_entries host_submit
    queue_pop_front queue_push_back queue_size frame_store
  cases pool with
  | nil => simp
  | cons h t =>
    cases h with
    | none => simp [List.count_cons]
    | some j =>
      simp only [Option.isSome_some, if_true]
      refine ⟨fun i => ?_, ?_, ?_⟩
      all_goals (repeat' (first | omega | assumption | simp [List.count_cons] | split_ifs))

theorem main_loop_body_shrinks (e : Env) (s : State) : Shrinks s (main_loop_body e s).1 :=
  ((main_host_to_bus_shrinks e s).trans (main_outbound_drain_shrinks e _)).trans
    ((main_bus_to_host_shrinks e _).trans (main_error_status_shrinks e _))

theorem Action.apply_shrinks (a : Action) (s : State) : Shrinks s (a.apply s).1 := by
  cases a with
  | iterate e => exact main_loop_body_shrinks e s
  | submit v => exact host_submit_shrinks v s

theorem run_shrinks (acts : List Action) (s : State) : Shrinks s (run acts s).1 := by
  induction acts generalizing s with
  | nil => exact Shrinks.refl s
  | cons a rest ih => exact (Action.apply_shrinks a s).trans (ih _)

/-! ### Startup and runs -/

theorem foldl_queue_push_back (l : List FramePtr) (q : queue_t)
    (h : q.buf.length + l.length ≤ q.max_elements) :
    l.foldl queue_push_back q = { q with buf := q.buf ++ l } := by
  induction l generalizing q with
  | nil => simp
  | cons a rest ih =>
    have hlt : q.buf.length < q.max_elements := by simp at h; omega
    simp only [List.foldl_cons, queue_push_back, queue_size, hlt, if_true]
    rw [ih]
    · simp
    · simp at h ⊢; omega

theorem main_init_pool (n : Nat) :
    (main_init n).q_frame_pool = { max_elements := n, buf := slab_ptrs n } := by
  unfold main_init
  simp only
  rw [foldl_queue_push_back]
  · simp [queue_create]
  · simp [queue_create, slab_ptrs]

theorem all_entries_main_init (n : Nat) : all_entries (main_init n) = slab_ptrs n := by
  unfold all_entries
  rw [main_init_pool]
  simp [main_init, queue_create]

theorem slab_ptrs_nodup (n : Nat) : (slab_ptrs n).Nodup :=
  (List.nodup_range n).map (Option.some_injective Nat)

theorem mem_slab_ptrs (n i : Nat) : some i ∈ slab_ptrs n ↔ i < n := by
  simp [slab_ptrs]

theorem run_append (a b : List Action) (s : State) :
    run (a ++ b) s = ((run b (run a s).1).1, (run a s).2 ++ (run b (run a s).1).2) := by
  induction a generalizing s with
  | nil => simp [run]
  | cons x rest ih => simp [run, ih, List.append_assoc]

theorem count_le_one_of_nodup (l : List FramePtr) (h : l.Nodup) (x : FramePtr) :
    l.count x ≤ 1 := by
  induction l with
  | nil => simp
  | cons a t ih =>
    rw [List.nodup_cons] at h
    by_cases hx : a = x
    · subst hx
      have h0 : t.count a = 0 := List.count_eq_zero.mpr h.1
      simp [h0]
    · have := ih h.2
      simp [List.count_cons, hx]
      exact this

theorem occ_main_init_le_one (n i : Nat) : occ (some i) (main_init n) ≤ 1 := by
  unfold occ
  rw [all_entries_main_init]
  exact count_le_one_of_nodup _ (slab_ptrs_nodup n) _

/-- C2: in every state reached from startup by loop iterations and host
submissions, every slab frame occurs at most once in the concatenation of
pool, inbound and outbound. -/
theorem C2_no_double_ownership (n : Nat) (acts : List Action) (i : Nat) :
    (all_entries (run acts (main_init n)).1).count (some i) ≤ 1 :=
  le_trans ((run_shrinks acts (main_init n)).1 i) (occ_main_init_le_one n i)

theorem rx_busy_iteration (id : Nat) (s : State) (i : Nat) (rest : List FramePtr)
    (hin : s.q_from_host.buf = []) (hlast : s.last_can_error_status = 0)
    (hpool : s.q_frame_pool.buf = some i :: rest) (hroom : has_room s.q_to_host) :
    (main_loop_body (env_rx_busy id) s).1.q_frame_pool.buf = rest ∧
    (main_loop_body (env_rx_busy id) s).1.q_to_host.buf = s.q_to_host.buf ++ [some i] ∧
    (main_loop_body (env_rx_busy id) s).1.q_from_host.buf = [] ∧
    (main_loop_body (env_rx_busy id) s).1.last_can_error_status = 0 := by
  obtain ⟨⟨cp, pool⟩, ⟨ci, inb⟩, ⟨co, out⟩, mem, last⟩ := s
  simp only at hin hlast hpool
  subst hin hlast hpool
  simp [has_room, queue_size] at hroom
  simp [main_loop_body, main_host_to_bus, main_outbound_drain, main_bus_to_host,
    main_error_status, env_rx_busy, env_idle, queue_pop_front, send_to_host_or_enqueue,
    queue_push_back, queue_size, frame_store, hroom]

theorem slab_ptrs_drop (n k : Nat) (hk : k < n) :
    (slab_ptrs n).drop k = some k :: (slab_ptrs n).drop (k + 1) := by
  have hlen : k < (slab_ptrs n).length := by simp [slab_ptrs, hk]
  rw [List.drop_eq_getElem_cons hlen]
  simp [slab_ptrs]

theorem slab_ptrs_take (n k : Nat) (hk : k < n) :
    (slab_ptrs n).take (k + 1) = (slab_ptrs n).take k ++ [some k] := by
  rw [List.take_succ]
  simp [slab_ptrs, hk]

theorem run_single_iterate (e : Env) (s : State) :
    (run [Action.iterate e] s).1 = (main_loop_body e s).1 := rfl

theorem run_rx_busy (n k : Nat) (hk : k ≤ n) :
    (run (List.replicate k (Action.iterate (env_rx_busy 0))) (main_init n)).1.q_frame_pool.buf
        = (slab_ptrs n).drop k ∧
    (run (List.replicate k (Action.iterate (env_rx_busy 0))) (main_init n)).1.q_to_host.buf
        = (slab_ptrs n).take k ∧
    (run (List.replicate k (Action.iterate (env_rx_busy 0))) (main_init n)).1.q_from_host.buf = [] ∧
    (run (List.replicate k (Action.iterate (env_rx_busy 0))) (main_init n)).1.last_can_error_status
        = 0 := by
  induction k with
  | zero =>
    simp only [List.replicate, run, main_init_pool]
    simp [main_init, queue_create]
  | succ k ih =>
    obtain ⟨hp, ho, hi, hl⟩ := ih (by omega)
    have hcap := (run_shrinks (List.replicate k (Action.iterate (env_rx_busy 0))) (main_init n)).2.2.2.2
    have hroom : has_room (run (List.replicate k (Action.iterate (env_rx_busy 0))) (main_init n)).1.q_to_host := by
      unfold has_room queue_size
      rw [hcap, ho]
      simp [main_init, queue_create, slab_ptrs]
      omega
    rw [slab_ptrs_drop n k (by omega)] at hp
    have h := rx_busy_iteration 0 _ k _ hi hl hp hroom
    rw [List.replicate_succ', run_append]
    simp only [run_single_iterate]
    rw [slab_ptrs_take n k (by omega), ← ho]
    exact h

theorem rx_pending_iteration_empty_pool (s : State)
    (hin : s.q_from_host.buf = []) (hlast : s.last_can_error_status = 0)
    (hpool : s.q_frame_pool.buf = []) (hcap : 0 < s.q_frame_pool.max_elements) :
    (main_loop_body env_rx_pending s).1.q_frame_pool.buf = [none] ∧
    (main_loop_body env_rx_pending s).1.q_to_host.buf = s.q_to_host.buf ∧
    (main_loop_body env_rx_pending s).1.q_from_host.buf = [] := by
  obtain ⟨⟨cp, pool⟩, ⟨ci, inb⟩, ⟨co, out⟩, mem, last⟩ := s
  simp only at hin hlast hpool hcap
  subst hin hlast hpool
  simp [main_loop_body, main_host_to_bus, main_outbound_drain, main_bus_to_host,
    main_error_status, env_rx_pending, env_idle, queue_pop_front,
    queue_push_back, queue_size, hcap]

/-- C1 (as the code behaves): for every slab size `n + 1`, the run in which
`n + 1` receptions are deferred while the host transport is busy and the bus
then reports one more pending reception ends, between two iterations, with
pool holding one null entry and
`size(pool) + size(inbound) + size(outbound) = CAN_QUEUE_SIZE + 1`. -/
theorem C1_conservation_broken (n : Nat) :
    (run (acts_exhaust_pool (n + 1)) (main_init (n + 1))).1.q_frame_pool.buf = [none] ∧
    total_size (run (acts_exhaust_pool (n + 1)) (main_init (n + 1))).1 = (n + 1) + 1 := by
  obtain ⟨hp, ho, hi, hl⟩ := run_rx_busy (n + 1) (n + 1) le_rfl
  have hcap := (run_shrinks (List.replicate (n + 1) (Action.iterate (env_rx_busy 0)))
    (main_init (n + 1))).2.2.1
  have hlen : (slab_ptrs (n + 1)).length = n + 1 := by simp [slab_ptrs]
  rw [List.drop_of_length_le (by omega)] at hp
  have h := rx_pending_iteration_empty_pool _ hi hl hp
    (by rw [hcap, main_init_pool]; simp)
  unfold acts_exhaust_pool
  rw [run_append]
  simp only [run_single_iterate, total_size, queue_size]
  rw [h.1, h.2.1, h.2.2, ho, List.take_of_length_le (by omega), hlen]
  simp
  omega

/-! ### What the helpers leave alone -/

@[simp] theorem frame_store_q_frame_pool (s : State) (f : FramePtr) (v : gs_host_frame) :
    (frame_store s f v).q_frame_pool = s.q_frame_pool := by
  cases f <;> rfl

@[simp] theorem frame_store_q_from_host (s : State) (f : FramePtr) (v : gs_host_frame) :
    (frame_store s f v).q_from_host = s.q_from_host := by
  cases f <;> rfl

@[simp] theorem frame_store_q_to_host (s : State) (f : FramePtr) (v : gs_host_frame) :
    (frame_store s f v).q_to_host = s.q_to_host := by
  cases f <;> rfl

@[simp] theorem frame_store_last_can_error_status (s : State) (f : FramePtr)
    (v : gs_host_frame) :
    (frame_store s f v).last_can_error_status = s.last_can_error_status := by
  cases f <;> rfl

@[simp] theorem send_to_host_or_enqueue_q_from_host (ok : Bool) (f : FramePtr) (s : State) :
    (send_to_host_or_enqueue ok f s).2.1.q_from_host = s.q_from_host := by
  cases ok <;> rfl

@[simp] theorem send_to_host_or_enqueue_last (ok : Bool) (f : FramePtr) (s : State) :
    (send_to_host_or_enqueue ok f s).2.1.last_can_error_status = s.last_can_error_status := by
  cases ok <;> rfl

@[simp] theorem send_to_host_or_enqueue_events (ok : Bool) (f : FramePtr) (s : State) :
    (send_to_host_or_enqueue ok f s).2.2
      = [Event.USBD_GS_CAN_Transmit f (frame_at s f) ok] := by
  cases ok <;> rfl

/-! ### The host-to-bus flow -/

theorem main_outbound_drain_from_host (e : Env) (s : State) :
    (main_outbound_drain e s).1.q_from_host = s.q_from_host ∧
      bus_log (main_outbound_drain e s).2 = [] := by
  unfold main_outbound_drain
  split_ifs <;> simp [bus_log]

theorem main_bus_to_host_from_host (e : Env) (s : State) :
    (main_bus_to_host e s).1.q_from_host = s.q_from_host ∧
      bus_log (main_bus_to_host e s).2 = [] := by
  unfold main_bus_to_host
  dsimp only
  split_ifs <;> simp [bus_log]

theorem main_error_status_from_host (e : Env) (s : State) :
    (main_error_status e s).1.q_from_host = s.q_from_host ∧
      bus_log (main_error_status e s).2 = [] := by
  unfold main_error_status
  dsimp only
  split_ifs <;> simp [bus_log]

theorem main_host_to_bus_nil (e : Env) (s : State) (h : s.q_from_host.buf = []) :
    (main_host_to_bus e s).1 = s ∧ (main_host_to_bus e s).2 = [] := by
  obtain ⟨pool, ⟨ci, inb⟩, out, mem, last⟩ := s
  simp only at h
  subst h
  simp [main_host_to_bus, queue_pop_front]

theorem main_host_to_bus_cons (e : Env) (s : State) (j : Nat) (t : List FramePtr)
    (hwf : queue_wf s.q_from_host) (h : s.q_from_host.buf = some j :: t) :
    bus_log (main_host_to_bus e s).2 = [(some j, e.can_send (frame_at s (some j)))] ∧
    (main_host_to_bus e s).1.q_from_host
      = if e.can_send (frame_at s (some j)) = true then { s.q_from_host with buf := t }
        else s.q_from_host := by
  obtain ⟨pool, ⟨ci, inb⟩, out, mem, last⟩ := s
  simp only at h
  subst h
  have hlt : t.length < ci := by
    simp [queue_wf, queue_size] at hwf; omega
  cases hs : e.can_send (mem[j]?.getD default) <;>
    simp [main_host_to_bus, queue_pop_front, frame_at, hs, bus_log, queue_push_front,
      queue_size, hlt]

theorem bus_attempts_append (a b : List (Step × Event)) :
    bus_attempts (a ++ b) = bus_attempts a ++ bus_attempts b := by
  simp [bus_attempts, bus_log, List.filterMap_append]

theorem bus_attempts_tag (st : Step) (evs : List Event) :
    bus_attempts (tag st evs) = bus_log evs := by
  simp [bus_attempts, tag, Function.comp_def]

theorem bus_attempts_main_loop_body (e : Env) (s : State) :
    bus_attempts (main_loop_body e s).2 = bus_log (main_host_to_bus e s).2 ∧
    (main_loop_body e s).1.q_from_host = (main_host_to_bus e s).1.q_from_host := by
  unfold main_loop_body
  dsimp only
  refine ⟨?_, ?_⟩
  · simp only [bus_attempts_append, bus_attempts_tag]
    rw [(main_outbound_drain_from_host e _).2, (main_bus_to_host_from_host e _).2,
      (main_error_status_from_host e _).2]
    simp [bus_attempts, bus_log]
  · rw [(main_error_status_from_host e _).1, (main_bus_to_host_from_host e _).1,
      (main_outbound_drain_from_host e _).1]

theorem bus_log_main_host_to_bus_length (e : Env) (s : State) :
    (bus_log (main_host_to_bus e s).2).length ≤ 1 := by
  unfold main_host_to_bus
  dsimp only
  split_ifs <;> simp [bus_log]

theorem run_iterations_cons (e : Env) (es : List Env) (s : State) :
    run (iterations (e :: es)) s
      = ((run (iterations es) (main_loop_body e s).1).1,
          (main_loop_body e s).2 ++ (run (iterations es) (main_loop_body e s).1).2) := rfl

theorem host_to_bus_run (es : List Env) (s : State) (hwf : queue_wf s.q_from_host)
    (hnn : none ∉ s.q_from_host.buf) :
    bus_sent (run (iterations es) s).2
      = s.q_from_host.buf.take ((bus_attempts (run (iterations es) s).2).countP (fun x => x.2)) ∧
    (run (iterations es) s).1.q_from_host.buf
      = s.q_from_host.buf.drop ((bus_attempts (run (iterations es) s).2).countP (fun x => x.2)) ∧
    (∀ pre p ok post, bus_attempts (run (iterations es) s).2 = pre ++ (p, ok) :: post →
      (s.q_from_host.buf.drop (pre.countP (fun x => x.2))).head? = some p) := by
  induction es generalizing s with
  | nil => simp [iterations, run, bus_sent, bus_attempts, bus_log]
  | cons e es ih =>
    rw [run_iterations_cons]
    simp only [bus_sent, bus_attempts_append]
    obtain ⟨hlog, hq⟩ := bus_attempts_main_loop_body e s
    rw [hlog]
    rcases hbuf : s.q_from_host.buf with _ | ⟨h, t⟩
    · -- inbound is empty: nothing is attempted
      have h1 := main_host_to_bus_nil e s hbuf
      have hq' : (main_loop_body e s).1.q_from_host = s.q_from_host := by rw [hq, h1.1]
      have ih' := ih (main_loop_body e s).1 (by rw [hq']; exact hwf) (by rw [hq']; exact hnn)
      rw [hq', hbuf] at ih'
      rw [h1.2]
      simpa [bus_log, bus_sent] using ih'
    · cases h with
      | none => rw [hbuf] at hnn; simp at hnn
      | some j =>
        obtain ⟨hl, hs⟩ := main_host_to_bus_cons e s j t hwf hbuf
        rw [hl]
        cases hok : e.can_send (frame_at s (some j))
        · -- the bus refuses: the frame is back at the head
          rw [hok] at hs
          have hq' : (main_loop_body e s).1.q_from_host = s.q_from_host := by
            rw [hq, hs]; simp
          have ih' := ih (main_loop_body e s).1 (by rw [hq']; exact hwf) (by rw [hq']; exact hnn)
          rw [hq', hbuf] at ih'
          obtain ⟨ia, ib, ic⟩ := ih'
          refine ⟨?_, ?_, ?_⟩
          · simpa [bus_sent] using ia
          · simpa using ib
          · intro pre p ok post hsplit
            cases pre with
            | nil =>
              simp at hsplit
              simp [hsplit.1.1]
            | cons x pre' =>
              simp at hsplit
              obtain ⟨hx, hrest⟩ := hsplit
              subst hx
              simpa using ic pre' p ok post hrest
        · -- the bus accepts: the frame leaves inbound
          rw [hok] at hs
          have hq' : (main_loop_body e s).1.q_from_host = { s.q_from_host with buf := t } := by
            rw [hq, hs]; simp
          have hwf' : queue_wf (main_loop_body e s).1.q_from_host := by
            rw [hq']
            simp [queue_wf, queue_size, hbuf] at hwf ⊢
            omega
          have hnn' : none ∉ (main_loop_body e s).1.q_from_host.buf := by
            rw [hq']
            rw [hbuf] at hnn
            simp at hnn ⊢
            exact hnn
          have ih' := ih (main_loop_body e s).1 hwf' hnn'
          rw [hq'] at ih'
          obtain ⟨ia, ib, ic⟩ := ih'
          refine ⟨?_, ?_, ?_⟩
          · simp [bus_sent] at ia ⊢
            exact ia
          · simpa using ib
          · intro pre p ok post hsplit
            cases pre with
            | nil =>
              simp at hsplit
              simp [hsplit.1.1]
            | cons x pre' =>
              simp at hsplit
              obtain ⟨hx, hrest⟩ := hsplit
              subst hx
              simpa using ic pre' p ok post hrest

/-- C4: for every inbound queue of frames and every pattern of bus-transmit
failures (loop iterations only, no host submission), the frames for which the
bus transmit succeeds are a prefix of the initial inbound contents in their
original order; every transmit attempt is made for the first frame of the
initial inbound contents not yet transmitted successfully, so no later frame
is attempted while the head is unsent; what remains in inbound is the initial
contents without the frames sent; and each iteration attempts at most one bus
transmit. -/
theorem C4_order_preserved_under_retry (es : List Env) (s : State)
    (hwf : queue_wf s.q_from_host) (hnn : none ∉ s.q_from_host.buf) :
    bus_sent (run (iterations es) s).2 <+: s.q_from_host.buf ∧
    (∀ pre p ok post, bus_attempts (run (iterations es) s).2 = pre ++ (p, ok) :: post →
      (s.q_from_host.buf.drop (pre.countP (fun x => x.2))).head? = some p) ∧
    (run (iterations es) s).1.q_from_host.buf
      = s.q_from_host.buf.drop (bus_sent (run (iterations es) s).2).length ∧
    (∀ (e : Env) (t : State), (bus_attempts (main_loop_body e t).2).length ≤ 1) := by
  obtain ⟨ha, hb, hc⟩ := host_to_bus_run es s hwf hnn
  refine ⟨?_, hc, ?_, ?_⟩
  · rw [ha]
    exact List.take_prefix _ _
  · rw [hb]
    simp [bus_sent, List.countP_eq_length_filter]
  · intro e t
    rw [(bus_attempts_main_loop_body e t).1]
    exact bus_log_main_host_to_bus_length e t

/-- C4 at the scenario of the claim: inbound = [A, B] (frames 0 and 1), the bus
refuses A once and then accepts: the attempts are A (refused), A (accepted),
B (accepted), so A is sent before B is attempted. -/
theorem C4_order_preserved_under_retry_witness :
    (queue_wf state_two_submitted.q_from_host ∧ none ∉ state_two_submitted.q_from_host.buf) ∧
    state_two_submitted.q_from_host.buf = [some 0, some 1] ∧
    bus_attempts (run (iterations [env_bus_busy, env_bus_ok, env_bus_ok]) state_two_submitted).2
      = [(some 0, false), (some 0, true), (some 1, true)] ∧
    bus_sent (run (iterations [env_bus_busy, env_bus_ok, env_bus_ok]) state_two_submitted).2
      <+: state_two_submitted.q_from_host.buf :=
  ⟨⟨by decide, by decide⟩, by decide, by decide,
    (C4_order_preserved_under_retry [env_bus_busy, env_bus_ok, env_bus_ok] state_two_submitted
      (by decide) (by decide)).1⟩

/-! ### The error-status flow -/

theorem map_snd_tag (st : Step) (evs : List Event) : (tag st evs).map Prod.snd = evs := by
  simp [tag, Function.comp_def]

theorem err_log_append (a b : List Event) : err_log (a ++ b) = err_log a ++ err_log b := by
  simp [err_log, List.filterMap_append]

theorem main_host_to_bus_err (e : Env) (s : State) :
    (main_host_to_bus e s).1.last_can_error_status = s.last_can_error_status ∧
      err_log (main_host_to_bus e s).2 = [] := by
  unfold main_host_to_bus
  dsimp only
  split_ifs <;> simp [err_log]

theorem main_outbound_drain_err (e : Env) (s : State) :
    (main_outbound_drain e s).1.last_can_error_status = s.last_can_error_status ∧
      err_log (main_outbound_drain e s).2 = [] := by
  unfold main_outbound_drain
  dsimp only
  split_ifs <;> simp [err_log]

theorem main_bus_to_host_err (e : Env) (s : State) :
    (main_bus_to_host e s).1.last_can_error_status = s.last_can_error_status ∧
      err_log (main_bus_to_host e s).2 = [] := by
  unfold main_bus_to_host
  dsimp only
  split_ifs <;> simp [err_log]

theorem before_error_status_last (e : Env) (s : State) :
    (before_error_status e s).last_can_error_status = s.last_can_error_status := by
  unfold before_error_status
  rw [(main_bus_to_host_err e _).1, (main_outbound_drain_err e _).1, (main_host_to_bus_err e _).1]

theorem host_submit_last (v : gs_host_frame) (s : State) :
    (host_submit v s).last_can_error_status = s.last_can_error_status := by
  unfold host_submit
  dsimp only
  split_ifs <;> simp

theorem countP_routed_tag (st : Step) (evs : List Event) :
    (tag st evs).countP is_routed_error_report
      = if st = Step.error_status then evs.countP Event.is_host_transmit else 0 := by
  induction evs with
  | nil => simp [tag]
  | cons ev rest ih =>
    simp only [tag, List.map_cons] at ih ⊢
    rw [List.countP_cons, ih]
    cases st <;> cases ev <;> simp [is_routed_error_report, Event.is_host_transmit]

/-- What the error-status step does, in terms of the state it starts in. -/
theorem main_error_status_cases (e : Env) (s : State) :
    (e.can_get_error_status ≠ s.last_can_error_status ∧
      ((queue_pop_front s.q_frame_pool).1.isSome &&
        (e.can_parse_error_status e.can_get_error_status
          (frame_at s (queue_pop_front s.q_frame_pool).1)).1) = true ∧
      (main_error_status e s).1.last_can_error_status = e.can_get_error_status ∧
      ((err_log (main_error_status e s).2).filter (fun x => x.2)).map (fun x => x.1)
        = [e.can_get_error_status] ∧
      (main_error_status e s).2.countP Event.is_host_transmit = 1) ∨
    ((e.can_get_error_status = s.last_can_error_status ∨
      ((queue_pop_front s.q_frame_pool).1.isSome &&
        (e.can_parse_error_status e.can_get_error_status
          (frame_at s (queue_pop_front s.q_frame_pool).1)).1) = false) ∧
      (main_error_status e s).1.last_can_error_status = s.last_can_error_status ∧
      ((err_log (main_error_status e s).2).filter (fun x => x.2)).map (fun x => x.1) = [] ∧
      (main_error_status e s).2.countP Event.is_host_transmit = 0) := by
  unfold main_error_status
  dsimp only
  have hfa : ∀ (q : queue_t) (f : FramePtr),
      frame_at { s with q_frame_pool := q } f = frame_at s f := fun _ _ => rfl
  simp only [hfa]
  by_cases hd : e.can_get_error_status = s.last_can_error_status
  · right
    simp [hd, err_log]
  · cases hsome : (queue_pop_front s.q_frame_pool).1.isSome
    · right
      simp [hd, hsome, err_log]
    · cases hf : (e.can_parse_error_status e.can_get_error_status
          (frame_at s (queue_pop_front s.q_frame_pool).1)).1
      · right
        simp [hd, hsome, hf, err_log, Event.is_host_transmit]
      · left
        simp [hd, hsome, hf, err_log, Event.is_host_transmit]

theorem error_reports_append (a b : List (Step × Event)) :
    error_reports (a ++ b) = error_reports a ++ error_reports b := by
  simp [error_reports, err_log_append]

theorem error_reports_routed_append (a b : List (Step × Event)) :
    error_reports_routed (a ++ b) = error_reports_routed a + error_reports_routed b := by
  simp [error_reports_routed]

theorem main_loop_body_error_cases (e : Env) (s : State) :
    (e.can_get_error_status ≠ s.last_can_error_status ∧
      error_step_succeeds e s = true ∧
      (main_loop_body e s).1.last_can_error_status = e.can_get_error_status ∧
      error_reports (main_loop_body e s).2 = [e.can_get_error_status] ∧
      error_reports_routed (main_loop_body e s).2 = 1) ∨
    ((e.can_get_error_status = s.last_can_error_status ∨ error_step_succeeds e s = false) ∧
      (main_loop_body e s).1.last_can_error_status = s.last_can_error_status ∧
      error_reports (main_loop_body e s).2 = [] ∧
      error_reports_routed (main_loop_body e s).2 = 0) := by
  have hstate : (main_loop_body e s).1 = (main_error_status e (before_error_status e s)).1 := rfl
  have hrep : error_reports (main_loop_body e s).2
      = ((err_log (main_error_status e (before_error_status e s)).2).filter
          (fun x => x.2)).map (fun x => x.1) := by
    unfold main_loop_body error_reports before_error_status
    dsimp only
    simp only [List.map_append, map_snd_tag, err_log_append]
    rw [(main_host_to_bus_err e _).2, (main_outbound_drain_err e _).2,
      (main_bus_to_host_err e _).2]
    simp [err_log]
  have hrouted : error_reports_routed (main_loop_body e s).2
      = (main_error_status e (before_error_status e s)).2.countP Event.is_host_transmit := by
    unfold main_loop_body error_reports_routed before_error_status
    dsimp only
    simp only [List.countP_append, countP_routed_tag]
    simp [is_routed_error_report]
  rw [hstate, hrep, hrouted]
  have h := main_error_status_cases e (before_error_status e s)
  rw [before_error_status_last] at h
  unfold error_step_succeeds
  exact h

theorem status_changes_le (r prev : Nat) (xs : List Nat) :
    status_changes r xs ≤ (if r ≠ prev then 1 else 0) + status_changes prev xs := by
  cases xs with
  | nil => simp [status_changes]
  | cons x rest =>
    simp only [status_changes]
    split_ifs <;> omega

theorem statuses_iterate (e : Env) (rest : List Action) :
    statuses (Action.iterate e :: rest) = e.can_get_error_status :: statuses rest := rfl

theorem statuses_submit (v : gs_host_frame) (rest : List Action) :
    statuses (Action.submit v :: rest) = statuses rest := rfl

theorem run_iterate (e : Env) (rest : List Action) (s : State) :
    run (Action.iterate e :: rest) s
      = ((run rest (main_loop_body e s).1).1,
          (main_loop_body e s).2 ++ (run rest (main_loop_body e s).1).2) := rfl

theorem run_submit (v : gs_host_frame) (rest : List Action) (s : State) :
    run (Action.submit v :: rest) s = run rest (host_submit v s) := by
  simp [run, Action.apply]

theorem error_reports_generated_le (acts : List Action) (s : State) :
    error_reports_generated (run acts s).2
      ≤ status_changes s.last_can_error_status (statuses acts) := by
  induction acts generalizing s with
  | nil => simp [run, error_reports_generated, error_reports, err_log, statuses, status_changes]
  | cons a rest ih =>
    cases a with
    | submit v =>
      have h := ih (host_submit v s)
      rw [host_submit_last] at h
      rw [run_submit, statuses_submit]
      exact h
    | iterate e =>
      have h := ih (main_loop_body e s).1
      rw [run_iterate, statuses_iterate]
      simp only [status_changes, error_reports_generated, error_reports_append,
        List.length_append] at h ⊢
      rcases main_loop_body_error_cases e s with ⟨hd, _, hl, hr, _⟩ | ⟨_, hl, hr, _⟩
      · rw [hl] at h
        rw [hr]
        rw [if_pos hd]
        simp only [List.length_singleton]
        omega
      · rw [hl] at h
        rw [hr]
        have hle := status_changes_le s.last_can_error_status e.can_get_error_status
          (statuses rest)
        simp only [List.length_nil]
        split_ifs with hc
        · have : (if s.last_can_error_status ≠ e.can_get_error_status then 1 else 0) = 1 := by
            simp [Ne.symm hc]
          omega
        · have hc' : e.can_get_error_status = s.last_can_error_status := by
            by_contra hne; exact hc hne
          rw [hc'] at hle ⊢
          omega

theorem error_reports_routed_eq (acts : List Action) (s : State)
    (hok : error_steps_succeed acts s = true) :
    error_reports_routed (run acts s).2
      = status_changes s.last_can_error_status (statuses acts) := by
  induction acts generalizing s with
  | nil => simp [run, error_reports_routed, statuses, status_changes]
  | cons a rest ih =>
    cases a with
    | submit v =>
      have h := ih (host_submit v s) hok
      rw [host_submit_last] at h
      rw [run_submit, statuses_submit]
      exact h
    | iterate e =>
      simp only [error_steps_succeed, Bool.and_eq_true, Bool.or_eq_true,
        decide_eq_true_eq] at hok
      obtain ⟨hstep, hrest⟩ := hok
      have h := ih (main_loop_body e s).1 hrest
      rw [run_iterate, statuses_iterate, error_reports_routed_append, h]
      simp only [status_changes]
      rcases main_loop_body_error_cases e s with ⟨hd, _, hl, _, hr⟩ | ⟨hc, hl, _, hr⟩
      · rw [hl, hr, if_pos hd]
      · have heq : e.can_get_error_status = s.last_can_error_status := by
          rcases hc with hc | hc
          · exact hc
          · rcases hstep with hs | hs
            · exact hs
            · rw [hs] at hc; exact absurd hc (by decide)
        rw [hl, hr, if_neg (by simpa using heq), heq]

/-- C8: starting with remembered status 0, for every run (iterations, with
host submissions in between or not), if in each iteration whose status differs
from the remembered one a pool frame is available at the error step and
error-frame formatting succeeds, the number of error-report frames routed to
Send-or-Requeue equals the number of positions at which the status differs
from its predecessor (the first compared with 0). -/
theorem C8_error_edge_triggering (acts : List Action) (s : State)
    (h0 : s.last_can_error_status = 0) (hok : error_steps_succeed acts s = true) :
    error_reports_routed (run acts s).2 = status_changes 0 (statuses acts) := by
  rw [← h0]
  exact error_reports_routed_eq acts s hok

/-- C8 at the scenario of the claim: the status sequence [0, 0, 5, 5, 5, 0]
makes exactly two error-report frames. -/
theorem C8_error_edge_triggering_witness :
    ((main_init 2).last_can_error_status = 0 ∧
      error_steps_succeed acts_status_scenario (main_init 2) = true) ∧
    statuses acts_status_scenario = [0, 0, 5, 5, 5, 0] ∧
    status_changes 0 (statuses acts_status_scenario) = 2 ∧
    error_reports_routed (run acts_status_scenario (main_init 2)).2
      = status_changes 0 (statuses acts_status_scenario) :=
  ⟨⟨by decide, by decide⟩, by decide, by decide,
    C8_error_edge_triggering acts_status_scenario (main_init 2) (by decide) (by decide)⟩

/-- C9: starting with remembered status 0, for every run, whatever the pool
availability, the formatting results and the transport answers, the number of
error-report frames generated is at most the number of positions at which the
status differs from its predecessor (the first compared with 0). -/
theorem C9_at_most_one_report_per_change (acts : List Action) (s : State)
    (h0 : s.last_can_error_status = 0) :
    error_reports_generated (run acts s).2 ≤ status_changes 0 (statuses acts) := by
  rw [← h0]
  exact error_reports_generated_le acts s

/-- C9 at a run with a formatting failure and a busy transport: the statuses
5, 5, 5, 0 change twice and two reports (5, then 0) are generated. -/
theorem C9_at_most_one_report_per_change_witness :
    (main_init 2).last_can_error_status = 0 ∧
    error_reports (run acts_status_retry (main_init 2)).2 = [5, 0] ∧
    status_changes 0 (statuses acts_status_retry) = 2 ∧
    error_reports_generated (run acts_status_retry (main_init 2)).2
      ≤ status_changes 0 (statuses acts_status_retry) :=
  ⟨by decide, by decide, by decide,
    C9_at_most_one_report_per_change acts_status_retry (main_init 2) (by decide)⟩

/-! ### The ownership invariant -/

theorem nodup_of_count_le_one (l : List FramePtr) (h : ∀ x, l.count x ≤ 1) : l.Nodup := by
  induction l with
  | nil => exact List.nodup_nil
  | cons a t ih =>
    rw [List.nodup_cons]
    constructor
    · intro hmem
      have h1 := h a
      have h2 : 0 < t.count a := List.count_pos_iff.mpr hmem
      simp at h1
      omega
    · apply ih
      intro x
      have h1 := h x
      rw [List.count_cons] at h1
      omega

theorem Inv.init (n : Nat) : Inv n (main_init n) := Shrinks.refl _

theorem Inv.run {n : Nat} {s : State} (h : Inv n s) (acts : List Action) :
    Inv n (run acts s).1 :=
  Shrinks.trans h (run_shrinks acts s)

theorem Inv.caps {n : Nat} {s : State} (h : Inv n s) :
    s.q_frame_pool.max_elements = n ∧ s.q_from_host.max_elements = n ∧
      s.q_to_host.max_elements = n := by
  obtain ⟨_, _, h1, h2, h3⟩ := h
  rw [main_init_pool] at h1
  exact ⟨h1, h2, h3⟩

theorem Inv.no_null {n : Nat} {s : State} (h : Inv n s) :
    none ∉ s.q_from_host.buf ∧ none ∉ s.q_to_host.buf := by
  obtain ⟨_, h0, _⟩ := h
  have hz : nulls (main_init n) = 0 := by simp [nulls, main_init, queue_create]
  rw [hz] at h0
  unfold nulls at h0
  constructor
  · exact List.count_eq_zero.mp (by omega)
  · exact List.count_eq_zero.mp (by omega)

theorem Inv.occ_le_one {n : Nat} {s : State} (h : Inv n s) (i : Nat) : occ (some i) s ≤ 1 :=
  le_trans (h.1 i) (occ_main_init_le_one n i)

theorem Inv.lt {n : Nat} {s : State} (h : Inv n s) (i : Nat)
    (hmem : some i ∈ all_entries s) : i < n := by
  have h1 : 0 < occ (some i) s := List.count_pos_iff.mpr hmem
  have h2 := h.1 i
  have h3 : 0 < occ (some i) (main_init n) := by omega
  have h4 : some i ∈ all_entries (main_init n) := List.count_pos_iff.mp h3
  rw [all_entries_main_init] at h4
  exact (mem_slab_ptrs n i).mp h4

theorem length_le_of_nodup_of_slab (n : Nat) (l : List FramePtr) (hnd : l.Nodup)
    (hsub : ∀ x ∈ l, x ∈ slab_ptrs n) : l.length ≤ n := by
  have h := (List.subperm_of_subset hnd hsub).length_le
  simpa [slab_ptrs] using h

/-- In a state reached from startup, outbound has room for any frame that is
held by pool or inbound. -/
theorem Inv.room_to_host {n : Nat} {s : State} (h : Inv n s) (i : Nat)
    (hi : some i ∈ s.q_frame_pool.buf ∨ some i ∈ s.q_from_host.buf) :
    s.q_to_host.buf.length < n := by
  have hcount : ∀ x, (some i :: s.q_to_host.buf).count x ≤ 1 := by
    intro x
    cases x with
    | none =>
      have := List.count_eq_zero.mpr h.no_null.2
      simp [List.count_cons, this]
    | some j =>
      have h1 := h.occ_le_one j
      unfold occ all_entries at h1
      simp only [List.count_append] at h1
      rw [List.count_cons]
      by_cases hij : i = j
      · subst hij
        have hpos : 0 < s.q_frame_pool.buf.count (some i) + s.q_from_host.buf.count (some i) := by
          rcases hi with hi | hi
          · have := List.count_pos_iff.mpr hi; omega
          · have := List.count_pos_iff.mpr hi; omega
        simp
        omega
      · have : ¬ (some i = some j) := by simpa using hij
        simp [hij]
        omega
  have hnd := nodup_of_count_le_one _ hcount
  have hsub : ∀ x ∈ some i :: s.q_to_host.buf, x ∈ slab_ptrs n := by
    intro x hx
    cases x with
    | none =>
      simp at hx
      exact absurd hx h.no_null.2
    | some j =>
      apply (mem_slab_ptrs n j).mpr
      apply h.lt j
      unfold all_entries
      simp at hx
      rcases hx with hx | hx
      · subst hx
        rcases hi with hi | hi
        · simp [hi]
        · simp [hi]
      · simp [hx]
  have := length_le_of_nodup_of_slab n _ hnd hsub
  simp at this
  omega

/-- In a state reached from startup, outbound holds no more than its capacity. -/
theorem Inv.to_host_wf {n : Nat} {s : State} (h : Inv n s) : s.q_to_host.buf.length ≤ n := by
  have hcount : ∀ x, s.q_to_host.buf.count x ≤ 1 := by
    intro x
    cases x with
    | none =>
      have := List.count_eq_zero.mpr h.no_null.2
      omega
    | some j =>
      have h1 := h.occ_le_one j
      unfold occ all_entries at h1
      simp only [List.count_append] at h1
      omega
  have hsub : ∀ x ∈ s.q_to_host.buf, x ∈ slab_ptrs n := by
    intro x hx
    cases x with
    | none => exact absurd hx h.no_null.2
    | some j =>
      apply (mem_slab_ptrs n j).mpr
      apply h.lt j
      unfold all_entries
      simp [hx]
  exact length_le_of_nodup_of_slab n _ (nodup_of_count_le_one _ hcount) hsub

/-! ### The bus-to-host flow through outbound -/

@[simp] theorem deferred_log_nil : deferred_log [] = [] := rfl

@[simp] theorem deferred_log_transmit (f : FramePtr) (b : gs_host_frame) (ok : Bool)
    (l : List Event) :
    deferred_log (Event.USBD_GS_CAN_Transmit f b ok :: l)
      = (if ok = true then [] else [f]) ++ deferred_log l := by
  cases ok <;> rfl

@[simp] theorem deferred_log_can_send (f : FramePtr) (ok : Bool) (l : List Event) :
    deferred_log (Event.can_send f ok :: l) = deferred_log l := rfl

@[simp] theorem deferred_log_can_receive (f : FramePtr) (ok : Bool) (l : List Event) :
    deferred_log (Event.can_receive f ok :: l) = deferred_log l := rfl

@[simp] theorem deferred_log_can_parse (c : Nat) (f : FramePtr) (ok : Bool) (l : List Event) :
    deferred_log (Event.can_parse_error_status c f ok :: l) = deferred_log l := rfl

@[simp] theorem deferred_log_led (led : led_seq_t) (l : List Event) :
    deferred_log (Event.led_indicate_trx led :: l) = deferred_log l := rfl

@[simp] theorem accepted_log_nil : accepted_log [] = [] := rfl

@[simp] theorem accepted_log_transmit (f : FramePtr) (b : gs_host_frame) (ok : Bool)
    (l : List Event) :
    accepted_log (Event.USBD_GS_CAN_Transmit f b ok :: l)
      = (if ok = true then [f] else []) ++ accepted_log l := by
  cases ok <;> rfl

theorem send_to_host_or_enqueue_to_host (ok : Bool) (f : FramePtr) (s : State)
    (hroom : ok = false → has_room s.q_to_host) :
    (send_to_host_or_enqueue ok f s).2.1.q_to_host.buf
      = s.q_to_host.buf ++ deferred_log (send_to_host_or_enqueue ok f s).2.2 := by
  cases ok with
  | true => simp [send_to_host_or_enqueue]
  | false =>
    simp [send_to_host_or_enqueue, queue_push_back_room _ _ (hroom rfl)]

theorem Inv.has_room_to_host {n : Nat} {s : State} (h : Inv n s) (i : Nat)
    (hi : some i ∈ s.q_frame_pool.buf ∨ some i ∈ s.q_from_host.buf) : has_room s.q_to_host := by
  unfold has_room queue_size
  rw [h.caps.2.2]
  exact h.room_to_host i hi

theorem main_host_to_bus_to_host (e : Env) (s : State) (n : Nat) (h : Inv n s) :
    (main_host_to_bus e s).1.q_to_host.buf
      = s.q_to_host.buf ++ deferred_log (main_host_to_bus e s).2 := by
  rcases hbuf : s.q_from_host.buf with _ | ⟨f, t⟩
  · rw [(main_host_to_bus_nil e s hbuf).1, (main_host_to_bus_nil e s hbuf).2]
    simp [deferred_log]
  · cases f with
    | none => exact absurd (by rw [hbuf]; simp) h.no_null.1
    | some j =>
      have hroom := h.has_room_to_host j (Or.inr (by rw [hbuf]; simp))
      have hsend := send_to_host_or_enqueue_to_host e.usb_transmit_echo (some j)
        { s with q_from_host := { s.q_from_host with buf := t } } (fun _ => hroom)
      unfold main_host_to_bus
      simp only [queue_pop_front, hbuf, Option.isSome_some, if_true]
      split_ifs
      · rw [hsend]
        simp
      · simp

theorem main_outbound_drain_to_host (e : Env) (s : State) (n : Nat) (h : Inv n s) :
    accepted_log (main_outbound_drain e s).2 ++ (main_outbound_drain e s).1.q_to_host.buf
      = s.q_to_host.buf := by
  have hwf := h.to_host_wf
  have hcap := h.caps.2.2
  rcases hbuf : s.q_to_host.buf with _ | ⟨f, t⟩
  · unfold main_outbound_drain
    simp [queue_size, hbuf]
  · have hlt : t.length < s.q_to_host.max_elements := by
      rw [hbuf] at hwf; simp at hwf; omega
    unfold main_outbound_drain
    simp only [queue_size, hbuf, queue_pop_front, queue_push_front]
    split_ifs <;> simp_all

theorem main_bus_to_host_to_host (e : Env) (s : State) (n : Nat) (h : Inv n s) :
    (main_bus_to_host e s).1.q_to_host.buf
      = s.q_to_host.buf ++ deferred_log (main_bus_to_host e s).2 := by
  rcases hbuf : s.q_frame_pool.buf with _ | ⟨f, t⟩
  · unfold main_bus_to_host
    simp only [queue_pop_front, hbuf, Option.isSome_none, Bool.false_eq_true, if_false]
    split_ifs <;> simp
  · cases f with
    | none =>
      unfold main_bus_to_host
      simp only [queue_pop_front, hbuf, Option.isSome_none, Bool.false_eq_true, if_false]
      split_ifs <;> simp
    | some j =>
      have hroom := h.has_room_to_host j (Or.inl (by rw [hbuf]; simp))
      unfold main_bus_to_host
      simp only [queue_pop_front, hbuf, Option.isSome_some, if_true]
      split_ifs
      · rw [send_to_host_or_enqueue_to_host _ _ _ (fun _ => by
          unfold has_room queue_size at hroom ⊢; simpa using hroom)]
        simp
      · simp
      · simp

theorem main_error_status_to_host (e : Env) (s : State) (n : Nat) (h : Inv n s) :
    (main_error_status e s).1.q_to_host.buf
      = s.q_to_host.buf ++ deferred_log (main_error_status e s).2 := by
  rcases hbuf : s.q_frame_pool.buf with _ | ⟨f, t⟩
  · unfold main_error_status
    simp only [queue_pop_front, hbuf, Option.isSome_none, Bool.false_eq_true, if_false]
    split_ifs <;> simp
  · cases f with
    | none =>
      unfold main_error_status
      simp only [queue_pop_front, hbuf, Option.isSome_none, Bool.false_eq_true, if_false]
      split_ifs <;> simp
    | some j =>
      have hroom := h.has_room_to_host j (Or.inl (by rw [hbuf]; simp))
      unfold main_error_status
      simp only [queue_pop_front, hbuf, Option.isSome_some, if_true]
      split_ifs
      · rw [send_to_host_or_enqueue_to_host _ _ _ (fun _ => by
          unfold has_room queue_size at hroom ⊢; simpa using hroom)]
        simp
      · simp
      · simp

theorem deferred_append (a b : List (Step × Event)) :
    deferred (a ++ b) = deferred a ++ deferred b := by
  simp [deferred, deferred_log, List.filterMap_append]

theorem drained_append (a b : List (Step × Event)) :
    drained (a ++ b) = drained a ++ drained b := by
  simp [drained, accepted_log, List.filterMap_append]

theorem filter_tag (p : Step → Bool) (st : Step) (evs : List Event) :
    ((tag st evs).filter (fun x => p x.1)).map Prod.snd = if p st = true then evs else [] := by
  induction evs with
  | nil => simp [tag]
  | cons ev rest ih =>
    simp only [tag, List.map_cons] at ih ⊢
    cases hp : p st
    · simp [List.filter_cons, hp]
    · simpa [List.filter_cons, hp] using ih

theorem deferred_tag (st : Step) (evs : List Event) :
    deferred (tag st evs) = if st = Step.outbound_drain then [] else deferred_log evs := by
  unfold deferred
  rw [filter_tag (fun st => decide (st ≠ Step.outbound_drain))]
  by_cases h : st = Step.outbound_drain <;> simp [h]

theorem drained_tag (st : Step) (evs : List Event) :
    drained (tag st evs) = if st = Step.outbound_drain then accepted_log evs else [] := by
  unfold drained
  rw [filter_tag (fun st => decide (st = Step.outbound_drain))]
  by_cases h : st = Step.outbound_drain <;> simp [h]

theorem host_submit_to_host (v : gs_host_frame) (s : State) :
    (host_submit v s).q_to_host = s.q_to_host := by
  unfold host_submit
  dsimp only
  split_ifs <;> simp

theorem main_loop_body_to_host (e : Env) (s : State) (n : Nat) (h : Inv n s) :
    drained (main_loop_body e s).2 ++ (main_loop_body e s).1.q_to_host.buf
      = s.q_to_host.buf ++ deferred (main_loop_body e s).2 := by
  have i1 : Inv n (main_host_to_bus e s).1 := Shrinks.trans h (main_host_to_bus_shrinks e s)
  have i2 : Inv n (main_outbound_drain e (main_host_to_bus e s).1).1 :=
    Shrinks.trans i1 (main_outbound_drain_shrinks e _)
  have i3 : Inv n (main_bus_to_host e (main_outbound_drain e (main_host_to_bus e s).1).1).1 :=
    Shrinks.trans i2 (main_bus_to_host_shrinks e _)
  have h1 := main_host_to_bus_to_host e s n h
  have h2 := main_outbound_drain_to_host e _ n i1
  have h3 := main_bus_to_host_to_host e _ n i2
  have h4 := main_error_status_to_host e _ n i3
  unfold main_loop_body
  dsimp only
  simp only [deferred_append, drained_append, deferred_tag, drained_tag]
  simp only [reduceCtorEq, if_false, if_true, List.append_nil, List.nil_append]
  have hled : deferred [(Step.led, Event.led_update)] = [] := by decide
  have hled' : drained [(Step.led, Event.led_update)] = [] := by decide
  rw [hled, hled', h4, h3, List.append_nil, List.append_nil, ← List.append_assoc,
    ← List.append_assoc, h2, h1]
  simp [List.append_assoc]

theorem run_to_host (acts : List Action) (s : State) (n : Nat) (h : Inv n s) :
    drained (run acts s).2 ++ (run acts s).1.q_to_host.buf
      = s.q_to_host.buf ++ deferred (run acts s).2 := by
  induction acts generalizing s with
  | nil => simp [run, drained, deferred, accepted_log, deferred_log]
  | cons a rest ih =>
    cases a with
    | submit v =>
      rw [run_submit]
      have := ih (host_submit v s) (Shrinks.trans h (host_submit_shrinks v s))
      rw [host_submit_to_host] at this
      exact this
    | iterate e =>
      rw [run_iterate]
      have h1 := main_loop_body_to_host e s n h
      have h2 := ih (main_loop_body e s).1 (Shrinks.trans h (main_loop_body_shrinks e s))
      simp only [drained_append, deferred_append]
      rw [List.append_assoc, h2, ← List.append_assoc, h1, List.append_assoc]

/-- C3 fails: reception R1 (arbitration id 1) is filled from the bus in the
first iteration and deferred to outbound because the transport is busy;
reception R2 (arbitration id 2) is filled in the second iteration and the
transport accepts it at once; R1 is accepted only in the third iteration. The
host transport accepts R2 before R1. -/
theorem C3_counterexample :
    (run acts_overtake (main_init 2)).2 =
      [(Step.bus_to_host, Event.can_receive (some 0) true),
       (Step.bus_to_host, Event.USBD_GS_CAN_Transmit (some 0) (rx_frame 1) false),
       (Step.bus_to_host, Event.led_indicate_trx led_seq_t.led_1),
       (Step.led, Event.led_update),
       (Step.bus_to_host, Event.can_receive (some 1) true),
       (Step.bus_to_host, Event.USBD_GS_CAN_Transmit (some 1) (rx_frame 2) true),
       (Step.bus_to_host, Event.led_indicate_trx led_seq_t.led_1),
       (Step.led, Event.led_update),
       (Step.outbound_drain, Event.USBD_GS_CAN_Transmit (some 0) (rx_frame 1) true),
       (Step.led, Event.led_update)] ∧
    host_accepted (run acts_overtake (main_init 2)).2 = [rx_frame 2, rx_frame 1] := by
  decide

/-- C3 (amended): frames waiting in outbound are never reordered among
themselves. For every run from startup (every slab size, every behaviour of
bus and transport, host submissions included), the frames the transport
accepted in the outbound-drain step, followed by the frames still waiting in
outbound, are exactly the frames `send_to_host_or_enqueue` deferred (transport
busy), in the order in which they were deferred. So of two receptions that
were both deferred, the one filled in the earlier iteration is accepted
first. -/
theorem C3_deferred_frames_keep_order (n : Nat) (acts : List Action) :
    drained (run acts (main_init n)).2 ++ (run acts (main_init n)).1.q_to_host.buf
      = deferred (run acts (main_init n)).2 := by
  have h := run_to_host acts (main_init n) n (Inv.init n)
  simpa [main_init, queue_create] using h

/-! ### Startup, spurious receptions and the inbound frame -/

/-- C15: on entry to the loop, pool contains exactly the `CAN_QUEUE_SIZE` slab
frames, each once, in slab index order; inbound and outbound are empty; all
three queues have capacity `CAN_QUEUE_SIZE`; and the remembered error status
is 0. -/
theorem C15_startup_seeding (n : Nat) :
    (main_init n).q_frame_pool.buf = (List.range n).map some ∧
    (main_init n).q_frame_pool.buf.Nodup ∧
    queue_size (main_init n).q_frame_pool = n ∧
    (main_init n).q_from_host.buf = [] ∧
    (main_init n).q_to_host.buf = [] ∧
    (main_init n).q_frame_pool.max_elements = n ∧
    (main_init n).q_from_host.max_elements = n ∧
    (main_init n).q_to_host.max_elements = n ∧
    (main_init n).last_can_error_status = 0 := by
  rw [main_init_pool]
  refine ⟨rfl, slab_ptrs_nodup n, ?_, rfl, rfl, rfl, rfl, rfl, rfl⟩
  simp [queue_size, slab_ptrs]

/-- C14: when the bus reports a pending reception, the head of a well-formed
pool is a frame and the bus driver's receive fails, the acquired frame is
returned to pool: pool becomes its tail followed by the acquired head (same
size, same frames), inbound and outbound are unchanged, and the only
collaborator call is the failed receive, so no transmit to the host is
attempted. -/
theorem C14_spurious_reception (e : Env) (s : State) (i : Nat) (t : List FramePtr)
    (hwf : queue_wf s.q_frame_pool) (hpend : e.can_is_rx_pending = true)
    (hpool : s.q_frame_pool.buf = some i :: t)
    (hfail : (e.can_receive (frame_at s (some i))).1 = false) :
    (main_bus_to_host e s).1.q_frame_pool.buf = t ++ [some i] ∧
    queue_size (main_bus_to_host e s).1.q_frame_pool = queue_size s.q_frame_pool ∧
    (queue_frames (main_bus_to_host e s).1.q_frame_pool).Perm (queue_frames s.q_frame_pool) ∧
    (main_bus_to_host e s).1.q_frame_pool.max_elements = s.q_frame_pool.max_elements ∧
    (main_bus_to_host e s).1.q_from_host = s.q_from_host ∧
    (main_bus_to_host e s).1.q_to_host = s.q_to_host ∧
    (main_bus_to_host e s).2 = [Event.can_receive (some i) false] := by
  obtain ⟨⟨cap, pool⟩, inb, out, mem, last⟩ := s
  simp only at hpool
  subst hpool
  have hlt : t.length < cap := by
    simp [queue_wf, queue_size] at hwf; omega
  simp only [frame_at, List.getD_eq_getElem?_getD] at hfail
  simp [main_bus_to_host, hpend, queue_pop_front, frame_at, hfail, frame_store, queue_push_back,
    queue_size, hlt, queue_frames, List.reduceOption_append, List.perm_append_singleton]

/-- C14 at a concrete input: with frames 0 and 1 in pool and a spurious
pending flag, frame 0 goes to the back of pool. -/
theorem C14_spurious_reception_witness :
    (queue_wf (main_init 2).q_frame_pool ∧ env_rx_pending.can_is_rx_pending = true ∧
      (main_init 2).q_frame_pool.buf = some 0 :: [some 1] ∧
      (env_rx_pending.can_receive (frame_at (main_init 2) (some 0))).1 = false) ∧
    (main_bus_to_host env_rx_pending (main_init 2)).1.q_frame_pool.buf = [some 1] ++ [some 0] ∧
    (main_bus_to_host env_rx_pending (main_init 2)).2 = [Event.can_receive (some 0) false] :=
  ⟨by decide,
    (C14_spurious_reception env_rx_pending (main_init 2) 0 [some 1]
      (by decide) (by decide) (by decide) (by decide)).1,
    (C14_spurious_reception env_rx_pending (main_init 2) 0 [some 1]
      (by decide) (by decide) (by decide) (by decide)).2.2.2.2.2.2⟩

/-- C17: for every state and every behaviour of the collaborators, after one
loop iteration inbound is either exactly the inbound queue before the
iteration or exactly its tail; the outbound-drain, bus-to-host and
error-status steps leave inbound unchanged. -/
theorem C17_inbound_never_grows (e : Env) (s : State) :
    ((main_loop_body e s).1.q_from_host = s.q_from_host ∨
      (main_loop_body e s).1.q_from_host
        = { s.q_from_host with buf := s.q_from_host.buf.tail }) ∧
    (∀ t : State, (main_outbound_drain e t).1.q_from_host = t.q_from_host) ∧
    (∀ t : State, (main_bus_to_host e t).1.q_from_host = t.q_from_host) ∧
    (∀ t : State, (main_error_status e t).1.q_from_host = t.q_from_host) := by
  refine ⟨?_, fun t => (main_outbound_drain_from_host e t).1,
    fun t => (main_bus_to_host_from_host e t).1, fun t => (main_error_status_from_host e t).1⟩
  rw [(bus_attempts_main_loop_body e s).2]
  obtain ⟨pool, ⟨ci, inb⟩, out, mem, last⟩ := s
  cases inb with
  | nil => simp [main_host_to_bus, queue_pop_front]
  | cons h t =>
    cases h with
    | none => simp [main_host_to_bus, queue_pop_front]
    | some j =>
      simp only [main_host_to_bus, queue_pop_front, Option.isSome_some, if_true,
        queue_push_front, queue_size, List.tail_cons]
      split_ifs <;> simp

/-! ### The slab memory -/

@[simp] theorem send_to_host_or_enqueue_msgbuf (ok : Bool) (f : FramePtr) (s : State) :
    (send_to_host_or_enqueue ok f s).2.1.msgbuf = s.msgbuf := by
  cases ok <;> rfl

@[simp] theorem frame_store_msgbuf_length (s : State) (f : FramePtr) (v : gs_host_frame) :
    (frame_store s f v).msgbuf.length = s.msgbuf.length := by
  cases f <;> simp [frame_store]

theorem stuck_bus_iteration (x : Env) (s : State)
    (hpool : s.q_frame_pool = { max_elements := 2, buf := [some 1] })
    (hin : s.q_from_host = { max_elements := 2, buf := [some 0] })
    (hout : s.q_to_host = { max_elements := 2, buf := [] })
    (hx : x.can_send (frame_at s (some 0)) = false ∧ x.can_is_rx_pending = false ∧
      x.can_get_error_status = s.last_can_error_status) :
    main_loop_body x s
      = (s, [(Step.host_to_bus, Event.can_send (some 0) false), (Step.led, Event.led_update)]) := by
  obtain ⟨pool, inb, out, mem, last⟩ := s
  simp only at hpool hin hout
  subst hpool hin hout
  obtain ⟨h1, h2, h3⟩ := hx
  simp only [frame_at, List.getD_eq_getElem?_getD] at h1
  simp only at h3
  simp [main_loop_body, main_host_to_bus, main_outbound_drain, main_bus_to_host,
    main_error_status, queue_pop_front, queue_push_front, queue_size, frame_at, h1, h2, h3, tag]

theorem stuck_bus_run (es : List Env) (s : State)
    (hpool : s.q_frame_pool = { max_elements := 2, buf := [some 1] })
    (hin : s.q_from_host = { max_elements := 2, buf := [some 0] })
    (hout : s.q_to_host = { max_elements := 2, buf := [] })
    (hfail : ∀ x ∈ es, x.can_send (frame_at s (some 0)) = false ∧ x.can_is_rx_pending = false ∧
      x.can_get_error_status = s.last_can_error_status) :
    (run (iterations es) s).1 = s ∧
    bus_attempts (run (iterations es) s).2 = List.replicate es.length (some 0, false) := by
  induction es with
  | nil => simp [iterations, run, bus_attempts, bus_log]
  | cons x rest ih =>
    have hx := hfail x (by simp)
    have hrest := ih (fun y hy => hfail y (by simp [hy]))
    rw [run_iterations_cons, stuck_bus_iteration x s hpool hin hout hx]
    refine ⟨hrest.1, ?_⟩
    simp only [bus_attempts_append, hrest.2, List.length_cons, List.replicate_succ]
    simp [bus_attempts, bus_log]

theorem stuck_bus_release (e : Env) (s : State)
    (hpool : s.q_frame_pool = { max_elements := 2, buf := [some 1] })
    (hin : s.q_from_host = { max_elements := 2, buf := [some 0] })
    (hout : s.q_to_host = { max_elements := 2, buf := [] })
    (he : e.can_send (frame_at s (some 0)) = true ∧ e.can_is_rx_pending = false ∧
      e.can_get_error_status = s.last_can_error_status) :
    (main_loop_body e s).1.q_from_host.buf = [] ∧
    (if e.usb_transmit_echo = true ∨
        (e.USBD_GS_CAN_TxReady = true ∧ e.usb_transmit_drain = true) then
      (main_loop_body e s).1.q_frame_pool.buf = [some 1, some 0] ∧
      (main_loop_body e s).1.q_to_host.buf = []
    else
      (main_loop_body e s).1.q_frame_pool.buf = [some 1] ∧
      (main_loop_body e s).1.q_to_host.buf = [some 0]) ∧
    bus_attempts (main_loop_body e s).2 = [(some 0, true)] := by
  obtain ⟨pool, inb, out, mem, last⟩ := s
  simp only at hpool hin hout
  subst hpool hin hout
  obtain ⟨h1, h2, h3⟩ := he
  simp only [frame_at, List.getD_eq_getElem?_getD] at h1
  simp only at h3
  cases hecho : e.usb_transmit_echo <;> cases hready : e.USBD_GS_CAN_TxReady <;>
    cases hdrain : e.usb_transmit_drain <;>
    simp [main_loop_body, main_host_to_bus, main_outbound_drain, main_bus_to_host,
      main_error_status, queue_pop_front, queue_push_front, queue_push_back, queue_size,
      frame_at, h1, h2, h3, tag, send_to_host_or_enqueue, hecho, hready, hdrain,
      bus_attempts, bus_log]

/-- C13: slab of two frames, F1 (frame 0) alone in inbound, the other frame in
pool, outbound empty.  For every number `k` of iterations in which the bus
transmit of F1 fails (no reception pending, error status unchanged), the
state after each of them is identical to the start, and each of them makes
one transmit attempt, for F1.  When the bus transmit succeeds in iteration
`k + 1`, F1 leaves inbound and ends in exactly one queue: at the back of pool
if the transport accepted it (at line 103, or at the drain of the same
iteration), otherwise at the back of outbound. -/
theorem C13_stuck_bus_retry (k : Nat) (es : List Env) (e : Env) (s : State)
    (hk : es.length = k)
    (hpool : s.q_frame_pool = { max_elements := 2, buf := [some 1] })
    (hin : s.q_from_host = { max_elements := 2, buf := [some 0] })
    (hout : s.q_to_host = { max_elements := 2, buf := [] })
    (hfail : ∀ x ∈ es, x.can_send (frame_at s (some 0)) = false ∧ x.can_is_rx_pending = false ∧
      x.can_get_error_status = s.last_can_error_status)
    (he : e.can_send (frame_at s (some 0)) = true ∧ e.can_is_rx_pending = false ∧
      e.can_get_error_status = s.last_can_error_status) :
    (∀ j, j ≤ k → (run (iterations (es.take j)) s).1 = s) ∧
    bus_attempts (run (iterations (es ++ [e])) s).2
      = List.replicate k (some 0, false) ++ [(some 0, true)] ∧
    (run (iterations (es ++ [e])) s).1.q_from_host.buf = [] ∧
    (if e.usb_transmit_echo = true ∨
        (e.USBD_GS_CAN_TxReady = true ∧ e.usb_transmit_drain = true) then
      (run (iterations (es ++ [e])) s).1.q_frame_pool.buf = [some 1, some 0] ∧
      (run (iterations (es ++ [e])) s).1.q_to_host.buf = []
    else
      (run (iterations (es ++ [e])) s).1.q_frame_pool.buf = [some 1] ∧
      (run (iterations (es ++ [e])) s).1.q_to_host.buf = [some 0]) := by
  subst hk
  have hrun := stuck_bus_run es s hpool hin hout hfail
  have hrel := stuck_bus_release e s hpool hin hout he
  have hsplit : run (iterations (es ++ [e])) s
      = ((main_loop_body e (run (iterations es) s).1).1,
          (run (iterations es) s).2 ++ ((main_loop_body e (run (iterations es) s).1).2 ++ [])) := by
    unfold iterations
    rw [List.map_append, run_append]
    rfl
  refine ⟨?_, ?_, ?_, ?_⟩
  · intro j _
    exact (stuck_bus_run (es.take j) s hpool hin hout
      (fun x hx => hfail x (List.mem_of_mem_take hx))).1
  · rw [hsplit]
    simp only [List.append_nil, bus_attempts_append]
    rw [hrun.2, hrun.1, hrel.2.2]
  · rw [hsplit]
    simp only
    rw [hrun.1]
    exact hrel.1
  · rw [hsplit]
    simp only
    rw [hrun.1]
    exact hrel.2.1

/-- C13 at the scenario of the claim, `k = 3`: three refused attempts leave
the state as it was, the fourth attempt succeeds, the transport accepts the
echo and F1 ends at the back of pool. -/
theorem C13_stuck_bus_retry_witness :
    ([env_bus_busy, env_bus_busy, env_bus_busy].length = 3 ∧
      state_one_submitted.q_frame_pool = { max_elements := 2, buf := [some 1] } ∧
      state_one_submitted.q_from_host = { max_elements := 2, buf := [some 0] } ∧
      state_one_submitted.q_to_host = { max_elements := 2, buf := [] }) ∧
    (∀ j, j ≤ 3 →
      (run (iterations ([env_bus_busy, env_bus_busy, env_bus_busy].take j))
        state_one_submitted).1 = state_one_submitted) ∧
    bus_attempts (run (iterations ([env_bus_busy, env_bus_busy, env_bus_busy] ++ [env_bus_ok]))
        state_one_submitted).2
      = List.replicate 3 (some 0, false) ++ [(some 0, true)] ∧
    (run (iterations ([env_bus_busy, env_bus_busy, env_bus_busy] ++ [env_bus_ok]))
        state_one_submitted).1.q_frame_pool.buf = [some 1, some 0] :=
  ⟨by decide,
    (C13_stuck_bus_retry 3 [env_bus_busy, env_bus_busy, env_bus_busy] env_bus_ok
      state_one_submitted rfl (by decide) (by decide) (by decide)
      (by decide) (by decide)).1,
    (C13_stuck_bus_retry 3 [env_bus_busy, env_bus_busy, env_bus_busy] env_bus_ok
      state_one_submitted rfl (by decide) (by decide) (by decide)
      (by decide) (by decide)).2.1,
    by decide⟩

/-! ### Only slab frames reach the collaborators -/

theorem main_host_to_bus_frame_valid (e : Env) (s : State) (n : Nat) (h : Inv n s) :
    ∀ ev ∈ (main_host_to_bus e s).2, ev.frame_valid n := by
  rcases hbuf : s.q_from_host.buf with _ | ⟨f, t⟩
  · rw [(main_host_to_bus_nil e s hbuf).2]
    simp
  · cases f with
    | none => exact absurd (by rw [hbuf]; simp) h.no_null.1
    | some j =>
      have hj : j < n := h.lt j (by unfold all_entries; simp [hbuf])
      unfold main_host_to_bus
      simp only [queue_pop_front, hbuf, Option.isSome_some, if_true]
      split_ifs <;> simp [Event.frame_valid, slab_frame, hj]

theorem main_outbound_drain_frame_valid (e : Env) (s : State) (n : Nat) (h : Inv n s) :
    ∀ ev ∈ (main_outbound_drain e s).2, ev.frame_valid n := by
  rcases hbuf : s.q_to_host.buf with _ | ⟨f, t⟩
  · unfold main_outbound_drain
    simp [queue_size, hbuf]
  · cases f with
    | none => exact absurd (by rw [hbuf]; simp) h.no_null.2
    | some j =>
      have hj : j < n := h.lt j (by unfold all_entries; simp [hbuf])
      unfold main_outbound_drain
      simp only [queue_size, queue_pop_front, hbuf]
      split_ifs <;> simp [Event.frame_valid, slab_frame, hj]

theorem main_bus_to_host_frame_valid (e : Env) (s : State) (n : Nat) (h : Inv n s) :
    ∀ ev ∈ (main_bus_to_host e s).2, ev.frame_valid n := by
  rcases hbuf : s.q_frame_pool.buf with _ | ⟨f, t⟩
  · unfold main_bus_to_host
    simp only [queue_pop_front, hbuf, Option.isSome_none, Bool.false_eq_true, if_false]
    split_ifs <;> simp
  · cases f with
    | none =>
      unfold main_bus_to_host
      simp only [queue_pop_front, hbuf, Option.isSome_none, Bool.false_eq_true, if_false]
      split_ifs <;> simp
    | some j =>
      have hj : j < n := h.lt j (by unfold all_entries; simp [hbuf])
      unfold main_bus_to_host
      simp only [queue_pop_front, hbuf, Option.isSome_some, if_true]
      split_ifs <;> simp [Event.frame_valid, slab_frame, hj]

theorem main_error_status_frame_valid (e : Env) (s : State) (n : Nat) (h : Inv n s) :
    ∀ ev ∈ (main_error_status e s).2, ev.frame_valid n := by
  rcases hbuf : s.q_frame_pool.buf with _ | ⟨f, t⟩
  · unfold main_error_status
    simp only [queue_pop_front, hbuf, Option.isSome_none, Bool.false_eq_true, if_false]
    split_ifs <;> simp
  · cases f with
    | none =>
      unfold main_error_status
      simp only [queue_pop_front, hbuf, Option.isSome_none, Bool.false_eq_true, if_false]
      split_ifs <;> simp
    | some j =>
      have hj : j < n := h.lt j (by unfold all_entries; simp [hbuf])
      unfold main_error_status
      simp only [queue_pop_front, hbuf, Option.isSome_some, if_true]
      split_ifs <;> simp [Event.frame_valid, slab_frame, hj]

theorem mem_tag (st : Step) (evs : List Event) (x : Step × Event) (hx : x ∈ tag st evs) :
    x.2 ∈ evs := by
  unfold tag at hx
  obtain ⟨ev, hev, rfl⟩ := List.mem_map.mp hx
  exact hev

theorem main_loop_body_frame_valid (e : Env) (s : State) (n : Nat) (h : Inv n s) :
    ∀ x ∈ (main_loop_body e s).2, x.2.frame_valid n := by
  have i1 : Inv n (main_host_to_bus e s).1 := Shrinks.trans h (main_host_to_bus_shrinks e s)
  have i2 : Inv n (main_outbound_drain e (main_host_to_bus e s).1).1 :=
    Shrinks.trans i1 (main_outbound_drain_shrinks e _)
  have i3 : Inv n (main_bus_to_host e (main_outbound_drain e (main_host_to_bus e s).1).1).1 :=
    Shrinks.trans i2 (main_bus_to_host_shrinks e _)
  intro x hx
  unfold main_loop_body at hx
  simp only [List.mem_append, List.mem_singleton] at hx
  rcases hx with (((hx | hx) | hx) | hx) | hx
  · exact main_host_to_bus_frame_valid e s n h _ (mem_tag _ _ _ hx)
  · exact main_outbound_drain_frame_valid e _ n i1 _ (mem_tag _ _ _ hx)
  · exact main_bus_to_host_frame_valid e _ n i2 _ (mem_tag _ _ _ hx)
  · exact main_error_status_frame_valid e _ n i3 _ (mem_tag _ _ _ hx)
  · subst hx
    simp [Event.frame_valid]

theorem run_frame_valid (acts : List Action) (s : State) (n : Nat) (h : Inv n s) :
    ∀ x ∈ (run acts s).2, x.2.frame_valid n := by
  induction acts generalizing s with
  | nil => simp [run]
  | cons a rest ih =>
    cases a with
    | submit v =>
      rw [run_submit]
      exact ih _ (Shrinks.trans h (host_submit_shrinks v s))
    | iterate e =>
      rw [run_iterate]
      intro x hx
      simp only [List.mem_append] at hx
      rcases hx with hx | hx
      · exact main_loop_body_frame_valid e s n h x hx
      · exact ih _ (Shrinks.trans h (main_loop_body_shrinks e s)) x hx

/-- C16: in every run from startup (every slab size, loop iterations and host
submissions, every behaviour of the collaborators), every frame handed to the
host transport (in `send_to_host_or_enqueue` and in the outbound drain) and
every frame handed to the bus driver's transmit, receive or error-format call
is a non-null slab frame; and in every state reached, inbound and outbound
contain no null entry. -/
theorem C16_only_slab_frames_reach_collaborators (n : Nat) (acts : List Action) :
    (∀ x ∈ (run acts (main_init n)).2, x.2.frame_valid n) ∧
    none ∉ (run acts (main_init n)).1.q_from_host.buf ∧
    none ∉ (run acts (main_init n)).1.q_to_host.buf :=
  ⟨run_frame_valid acts (main_init n) n (Inv.init n), ((Inv.init n).run acts).no_null⟩

/-- C16 at a concrete run: in the run in which reception R1 is deferred and
later drained, the frame the outbound drain hands to the host transport is
frame 0 of the two-frame slab. -/
theorem C16_only_slab_frames_reach_collaborators_witness :
    (Step.outbound_drain, Event.USBD_GS_CAN_Transmit (some 0) (rx_frame 1) true)
      ∈ (run acts_overtake (main_init 2)).2 ∧
    Event.frame_valid 2 (Event.USBD_GS_CAN_Transmit (some 0) (rx_frame 1) true) :=
  ⟨by decide,
    (C16_only_slab_frames_reach_collaborators 2 acts_overtake).1
      (Step.outbound_drain, Event.USBD_GS_CAN_Transmit (some 0) (rx_frame 1) true) (by decide)⟩

/-! ### The remembered error status -/

theorem getLast?_cons_getD (c d : Nat) (l : List Nat) :
    ((c :: l).getLast?).getD d = (l.getLast?).getD c := by
  cases l with
  | nil => simp
  | cons a t =>
    rw [List.getLast?_cons_cons, List.getLast?_eq_getLast _ (List.cons_ne_nil a t)]
    rfl

theorem remembered_status_run (acts : List Action) (s : State) :
    (run acts s).1.last_can_error_status
      = ((error_reports (run acts s).2).getLast?).getD s.last_can_error_status ∧
    List.Chain (fun a b => a ≠ b) s.last_can_error_status (error_reports (run acts s).2) := by
  induction acts generalizing s with
  | nil => simp [run, error_reports, err_log]
  | cons a rest ih =>
    cases a with
    | submit v =>
      rw [run_submit]
      have h := ih (host_submit v s)
      rw [host_submit_last] at h
      exact h
    | iterate e =>
      rw [run_iterate]
      simp only [error_reports_append]
      have h := ih (main_loop_body e s).1
      rcases main_loop_body_error_cases e s with ⟨hd, _, hl, hr, _⟩ | ⟨_, hl, hr, _⟩
      · rw [hl] at h
        rw [hr, List.singleton_append, getLast?_cons_getD]
        exact ⟨h.1, List.Chain.cons (Ne.symm hd) h.2⟩
      · rw [hl] at h
        rw [hr, List.nil_append]
        exact h

/-- C18: in every state reached from startup, the remembered error status
equals the status code of the most recently generated error-report frame, or
0 if none has been generated yet; the first report differs from 0 and two
consecutively generated reports always carry different status codes; and an
iteration that generates a report sets the remembered status to its code
whatever the transport answers, so also when the report is only queued in
outbound. -/
theorem C18_remembered_status (n : Nat) (acts : List Action) :
    (run acts (main_init n)).1.last_can_error_status
      = ((error_reports (run acts (main_init n)).2).getLast?).getD 0 ∧
    List.Chain (fun a b => a ≠ b) 0 (error_reports (run acts (main_init n)).2) ∧
    List.Chain' (fun a b => a ≠ b) (error_reports (run acts (main_init n)).2) ∧
    (∀ (e : Env) (t : State),
      error_reports (main_loop_body e t).2 = [e.can_get_error_status] →
      (main_loop_body e t).1.last_can_error_status = e.can_get_error_status) := by
  have h := remembered_status_run acts (main_init n)
  have h0 : (main_init n).last_can_error_status = 0 := rfl
  rw [h0] at h
  refine ⟨h.1, h.2, ?_, ?_⟩
  · have hc : List.Chain' (fun a b => a ≠ b) (0 :: error_reports (run acts (main_init n)).2) :=
      h.2
    exact hc.tail
  · intro e t hrep
    rcases main_loop_body_error_cases e t with ⟨_, _, hl, _, _⟩ | ⟨_, _, hr, _⟩
    · exact hl
    · rw [hr] at hrep
      exact absurd hrep (by simp)

/-- C18 at a concrete input: at startup the bus reports status 5 while the
host transport is busy; the report is generated and queued in outbound, and
the remembered status is 5. -/
theorem C18_remembered_status_witness :
    error_reports (main_loop_body (env_status_queued 5) (main_init 2)).2
      = [(env_status_queued 5).can_get_error_status] ∧
    (main_loop_body (env_status_queued 5) (main_init 2)).1.q_to_host.buf = [some 0] ∧
    (main_loop_body (env_status_queued 5) (main_init 2)).1.last_can_error_status
      = (env_status_queued 5).can_get_error_status :=
  ⟨by decide, by decide,
    (C18_remembered_status 2 []).2.2.2 (env_status_queued 5) (main_init 2) (by decide)⟩

/-! ### A push onto a full pool -/

theorem run_acts_exhaust_pool (n : Nat) :
    (run (acts_exhaust_pool (n + 1)) (main_init (n + 1))).1.q_frame_pool.buf = [none] ∧
    (run (acts_exhaust_pool (n + 1)) (main_init (n + 1))).1.q_to_host.buf = slab_ptrs (n + 1) ∧
    (run (acts_exhaust_pool (n + 1)) (main_init (n + 1))).1.q_from_host.buf = [] ∧
    (run (acts_exhaust_pool (n + 1)) (main_init (n + 1))).1.last_can_error_status = 0 := by
  obtain ⟨hp, ho, hi, hl⟩ := run_rx_busy (n + 1) (n + 1) le_rfl
  have hcap := (run_shrinks (List.replicate (n + 1) (Action.iterate (env_rx_busy 0)))
    (main_init (n + 1))).2.2.1
  have hlen : (slab_ptrs (n + 1)).length = n + 1 := by simp [slab_ptrs]
  rw [List.drop_of_length_le (by omega)] at hp
  rw [List.take_of_length_le (by omega)] at ho
  have h := rx_pending_iteration_empty_pool _ hi hl hp (by rw [hcap, main_init_pool]; simp)
  unfold acts_exhaust_pool
  rw [run_append]
  simp only [run_single_iterate]
  refine ⟨h.1, by rw [h.2.1, ho], h.2.2, ?_⟩
  rcases main_loop_body_error_cases env_rx_pending
    (run (List.replicate (n + 1) (Action.iterate (env_rx_busy 0))) (main_init (n + 1))).1
    with ⟨hd, _⟩ | ⟨_, hl', _⟩
  · rw [hl] at hd
    exact absurd rfl hd
  · rw [hl', hl]

theorem drain_ok_iteration (s : State) (i : Nat) (rest : List FramePtr)
    (hin : s.q_from_host.buf = []) (hlast : s.last_can_error_status = 0)
    (hout : s.q_to_host.buf = some i :: rest) (hroom : has_room s.q_frame_pool) :
    (main_loop_body env_drain_ok s).1.q_frame_pool.buf = s.q_frame_pool.buf ++ [some i] ∧
    (main_loop_body env_drain_ok s).1.q_to_host.buf = rest ∧
    (main_loop_body env_drain_ok s).1.q_from_host.buf = [] ∧
    (main_loop_body env_drain_ok s).1.last_can_error_status = 0 := by
  obtain ⟨⟨cp, pool⟩, ⟨ci, inb⟩, ⟨co, out⟩, mem, last⟩ := s
  simp only at hin hlast hout
  subst hin hlast hout
  simp [has_room, queue_size] at hroom
  simp [main_loop_body, main_host_to_bus, main_outbound_drain, main_bus_to_host,
    main_error_status, env_drain_ok, env_idle, queue_pop_front, queue_push_back, queue_size,
    hroom]

theorem run_acts_refill_pool (n k : Nat) (hk : k ≤ n) :
    (run (acts_refill_pool (n + 1) k) (main_init (n + 1))).1.q_frame_pool.buf
      = none :: (slab_ptrs (n + 1)).take k ∧
    (run (acts_refill_pool (n + 1) k) (main_init (n + 1))).1.q_to_host.buf
      = (slab_ptrs (n + 1)).drop k ∧
    (run (acts_refill_pool (n + 1) k) (main_init (n + 1))).1.q_from_host.buf = [] ∧
    (run (acts_refill_pool (n + 1) k) (main_init (n + 1))).1.last_can_error_status = 0 := by
  induction k with
  | zero =>
    have h := run_acts_exhaust_pool n
    simpa [acts_refill_pool] using h
  | succ k ih =>
    obtain ⟨hp, ho, hi, hl⟩ := ih (by omega)
    have hcap := (run_shrinks (acts_refill_pool (n + 1) k) (main_init (n + 1))).2.2.1
    have hroom : has_room (run (acts_refill_pool (n + 1) k) (main_init (n + 1))).1.q_frame_pool := by
      unfold has_room queue_size
      rw [hcap, hp, main_init_pool]
      simp [slab_ptrs]
      omega
    rw [slab_ptrs_drop (n + 1) k (by omega)] at ho
    have h := drain_ok_iteration _ k _ hi hl ho hroom
    have hsplit : acts_refill_pool (n + 1) (k + 1)
        = acts_refill_pool (n + 1) k ++ [Action.iterate env_drain_ok] := by
      unfold acts_refill_pool
      rw [List.replicate_succ', List.append_assoc]
    rw [hsplit, run_append]
    simp only [run_single_iterate]
    rw [slab_ptrs_take (n + 1) k (by omega)]
    refine ⟨?_, h.2.1, h.2.2.1, h.2.2.2⟩
    rw [h.1, hp]
    simp

/-- C11 (as the code behaves): for every slab size `n + 1` there is a state
reached from startup (pool exhausted, one more pending reception, then `n`
drained frames) in which pool is at its capacity, one of its entries being
the null pointer pushed at line 136, while frame `n` waits in outbound.  In
the next outbound drain the transport accepts frame `n` and line 116 pushes it
onto the full pool: the push fails, pool is unchanged and frame `n` is in no
queue any more. -/
theorem C11_push_onto_full_pool (n : Nat) :
    (state_pool_full n).q_to_host.buf = [some n] ∧
    (state_pool_full n).q_frame_pool.buf = none :: (slab_ptrs (n + 1)).take n ∧
    ¬ has_room (state_pool_full n).q_frame_pool ∧
    (main_outbound_drain env_drain_ok (state_pool_full n)).2
      = [Event.USBD_GS_CAN_Transmit (some n) (frame_at (state_pool_full n) (some n)) true] ∧
    (main_outbound_drain env_drain_ok (state_pool_full n)).1.q_frame_pool
      = (state_pool_full n).q_frame_pool ∧
    (main_outbound_drain env_drain_ok (state_pool_full n)).1.q_to_host.buf = [] ∧
    (all_entries (main_outbound_drain env_drain_ok (state_pool_full n)).1).count (some n) = 0 := by
  obtain ⟨hp, ho, hi, _⟩ := run_acts_refill_pool n n le_rfl
  have hcap := (run_shrinks (acts_refill_pool (n + 1) n) (main_init (n + 1))).2.2.1
  rw [main_init_pool] at hcap
  simp only at hcap
  have hdrop : (slab_ptrs (n + 1)).drop n = [some n] := by
    rw [slab_ptrs_drop (n + 1) n (by omega), List.drop_of_length_le (by simp [slab_ptrs])]
  rw [hdrop] at ho
  have hfull : ¬ has_room (state_pool_full n).q_frame_pool := by
    unfold has_room queue_size state_pool_full
    rw [hcap, hp]
    simp [slab_ptrs]
  have hnot : some n ∉ (slab_ptrs (n + 1)).take n := by
    intro hmem
    have hlt : n < n := by
      have h1 : (slab_ptrs (n + 1)).take n = slab_ptrs n := by
        simp [slab_ptrs, ← List.map_take, List.take_range]
      rw [h1] at hmem
      exact (mem_slab_ptrs n n).mp hmem
    omega
  generalize hs : state_pool_full n = s at *
  unfold state_pool_full at hs
  rw [hs] at hp ho hi hcap
  obtain ⟨⟨cp, pool⟩, ⟨ci, inb⟩, ⟨co, out⟩, mem, last⟩ := s
  simp only at hp ho hi hcap
  subst hp ho hi hcap
  have hlen : (List.take n (slab_ptrs (n + 1))).length = n := by simp [slab_ptrs]
  refine ⟨rfl, rfl, hfull, ?_, ?_, ?_, ?_⟩
  · simp [main_outbound_drain, env_drain_ok, env_idle, queue_size, queue_pop_front, frame_at]
  · simp [main_outbound_drain, env_drain_ok, env_idle, queue_size, queue_pop_front,
      queue_push_back, hlen]
  · simp [main_outbound_drain, env_drain_ok, env_idle, queue_size, queue_pop_front]
  · simp [main_outbound_drain, env_drain_ok, env_idle, queue_size, queue_pop_front,
      queue_push_back, all_entries, hlen, List.count_eq_zero.mpr hnot]

/-! ### Without the null entry of line 136 no push fails -/

theorem length_lt_of_absent (n : Nat) (l : List FramePtr) (hnn : none ∉ l)
    (hcount : ∀ k : Nat, l.count (some k) ≤ 1) (hlt : ∀ k : Nat, some k ∈ l → k < n)
    (j : Nat) (hj : j < n) (habs : some j ∉ l) : l.length < n := by
  have hc : ∀ x, (some j :: l).count x ≤ 1 := by
    intro x
    cases x with
    | none =>
      have := List.count_eq_zero.mpr hnn
      simp [List.count_cons, this]
    | some k =>
      rw [List.count_cons]
      by_cases hjk : j = k
      · subst hjk
        have := List.count_eq_zero.mpr habs
        simp [this]
      · have := hcount k
        simp [hjk]
        exact this
  have hsub : ∀ x ∈ some j :: l, x ∈ slab_ptrs n := by
    intro x hx
    cases x with
    | none =>
      simp at hx
      exact absurd hx hnn
    | some k =>
      apply (mem_slab_ptrs n k).mpr
      simp at hx
      rcases hx with hx | hx
      · subst hx; exact hj
      · exact hlt k hx
  have := length_le_of_nodup_of_slab n _ (nodup_of_count_le_one _ hc) hsub
  simp at this
  omega

/-- In a state meeting the ownership invariant whose pool holds no null
entry, pool has room for any slab frame it does not hold. -/
theorem Inv.has_room_pool {n : Nat} {s : State} (h : Inv n s)
    (hnn : none ∉ s.q_frame_pool.buf) (j : Nat) (hj : j < n)
    (habs : some j ∉ s.q_frame_pool.buf) : has_room s.q_frame_pool := by
  unfold has_room queue_size
  rw [h.caps.1]
  refine length_lt_of_absent n _ hnn (fun k => ?_) (fun k hk => ?_) j hj habs
  · have h1 := h.occ_le_one k
    unfold occ all_entries at h1
    simp only [List.count_append] at h1
    omega
  · exact h.lt k (by unfold all_entries; simp [hk])

/-- In a state meeting the ownership invariant, outbound has room for any
slab frame it does not hold. -/
theorem Inv.has_room_to_host_of_absent {n : Nat} {s : State} (h : Inv n s) (j : Nat)
    (hj : j < n) (habs : some j ∉ s.q_to_host.buf) : has_room s.q_to_host := by
  unfold has_room queue_size
  rw [h.caps.2.2]
  refine length_lt_of_absent n _ h.no_null.2 (fun k => ?_) (fun k hk => ?_) j hj habs
  · have h1 := h.occ_le_one k
    unfold occ all_entries at h1
    simp only [List.count_append] at h1
    omega
  · exact h.lt k (by unfold all_entries; simp [hk])

/-- The contract of claim C6 as stated, with no assumption on capacities, in
every state that meets the ownership invariant of the reached states and
whose pool holds no null entry, for every slab frame that is in no queue (the
frame in hand at lines 103, 131 and 146): the only way the contract fails is
the null pointer pushed at line 136. -/
theorem send_to_host_or_enqueue_without_null (n : Nat) (s : State) (usbd_ok : Bool) (j : Nat)
    (h : Inv n s) (hnn : none ∉ s.q_frame_pool.buf) (hj : j < n)
    (habs : some j ∉ all_entries s) :
    (send_to_host_or_enqueue usbd_ok (some j) s).2.2
        = [Event.USBD_GS_CAN_Transmit (some j) (frame_at s (some j)) usbd_ok] ∧
      (send_to_host_or_enqueue usbd_ok (some j) s).1 = usbd_ok ∧
      (send_to_host_or_enqueue usbd_ok (some j) s).2.1.q_from_host = s.q_from_host ∧
      (if usbd_ok then
        (send_to_host_or_enqueue usbd_ok (some j) s).2.1.q_frame_pool.buf
          = s.q_frame_pool.buf ++ [some j] ∧
        (send_to_host_or_enqueue usbd_ok (some j) s).2.1.q_to_host = s.q_to_host
      else
        (send_to_host_or_enqueue usbd_ok (some j) s).2.1.q_to_host.buf
          = s.q_to_host.buf ++ [some j] ∧
        (send_to_host_or_enqueue usbd_ok (some j) s).2.1.q_frame_pool = s.q_frame_pool) := by
  unfold all_entries at habs
  simp only [List.mem_append, not_or] at habs
  apply send_to_host_or_enqueue_with_room
  cases usbd_ok with
  | true => exact h.has_room_pool hnn j hj habs.1.1
  | false => exact h.has_room_to_host_of_absent j hj habs.2

/-- The contract of claim C7 as stated, with no assumption on capacities, in
every state that meets the ownership invariant of the reached states and
whose pool holds no null entry: the only way the contract fails is the null
pointer pushed at line 136. -/
theorem main_outbound_drain_without_null (n : Nat) (e : Env) (s : State)
    (h : Inv n s) (hnn : none ∉ s.q_frame_pool.buf) :
    if e.USBD_GS_CAN_TxReady = true ∧ s.q_to_host.buf ≠ [] then
      ∃ hd t, s.q_to_host.buf = hd :: t ∧
        (main_outbound_drain e s).2
          = [Event.USBD_GS_CAN_Transmit hd (frame_at s hd) e.usb_transmit_drain] ∧
        (if e.usb_transmit_drain = true then
          (main_outbound_drain e s).1.q_to_host.buf = t ∧
          (main_outbound_drain e s).1.q_frame_pool.buf = s.q_frame_pool.buf ++ [hd] ∧
          (main_outbound_drain e s).1.q_from_host = s.q_from_host
        else (main_outbound_drain e s).1 = s)
    else main_outbound_drain e s = (s, []) := by
  have hwf : queue_wf s.q_to_host := by
    unfold queue_wf queue_size
    rw [h.caps.2.2]
    exact h.to_host_wf
  rcases hbuf : s.q_to_host.buf with _ | ⟨f, t⟩
  · have hempty : main_outbound_drain e s = (s, []) := by
      unfold main_outbound_drain
      simp [queue_size, hbuf]
    simp [hempty]
  · rw [← hbuf]
    apply main_outbound_drain_with_room e s hwf
    intro _
    cases f with
    | none => exact absurd (by rw [hbuf]; simp) h.no_null.2
    | some j =>
      have hmem : some j ∈ s.q_to_host.buf := by rw [hbuf]; simp
      have hj : j < n := h.lt j (by unfold all_entries; simp [hmem])
      refine h.has_room_pool hnn j hj ?_
      intro hp
      have h1 := h.occ_le_one j
      unfold occ all_entries at h1
      simp only [List.count_append] at h1
      have h2 : 0 < s.q_frame_pool.buf.count (some j) := List.count_pos_iff.mpr hp
      have h3 : 0 < s.q_to_host.buf.count (some j) := List.count_pos_iff.mpr hmem
      omega

end CandleLight
